import Mathlib

/-!
Verification of the Sentinel storage-media integrity checker
(`src/sentinel/core.py`, `src/sentinel/sweep.py`) against its
natural-language specification.

The Python source is shallowly embedded: byte counts are `Nat`, hashes are
`Nat` digests, file contents are `List Nat` byte sequences, Python dicts
with optional keys become structures with `Option` fields, and the
interaction with the operating system (drive usage queries, file reads,
`OSError`s, the cooperative `abort_check` callback) is abstracted into an
explicit environment record consumed by the embedded operations.
-/

namespace Sentinel

/-- `SAFETY_MARGIN_BYTES = 100 * 1024 * 1024` from `src/sentinel/core.py`. -/
def SAFETY_MARGIN_BYTES : Nat := 100 * 1024 * 1024

/-- `MAX_FILE_BYTES = 2 * 1024 * 1024 * 1024` from `src/sentinel/core.py`. -/
def MAX_FILE_BYTES : Nat := 2 * 1024 * 1024 * 1024

/-- `WRITE_CHUNK_BYTES = 64 * 1024 * 1024` from `src/sentinel/core.py`. -/
def WRITE_CHUNK_BYTES : Nat := 64 * 1024 * 1024

/-- `SENTINEL_DIR = "Sentinel"` from `src/sentinel/sweep.py`. -/
def SENTINEL_DIR : String := "Sentinel"

/-!
## Chunked hasher model

`hashlib.sha256` is Python standard-library code, not part of this
repository. Modelled from the spec: a cryptographic digest that streams
bytes through an incremental state (`hasher.update(chunk)`), is
order-sensitive, and depends only on the concatenated byte sequence, not
on chunk boundaries. We model the incremental state as a 64-bit
accumulator; `hashRun` is the `update` operation folded over a byte
sequence and `sha256` is the digest of a whole sequence from the initial
state. Chunk-insensitivity (`hashRun_append`) holds by construction,
matching the real SHA-256 stream contract.
-/

/-- One step of the modelled digest: absorb byte `b` into state `h`. -/
def hashStep (h b : Nat) : Nat := (h * 257 + b + 1) % 18446744073709551616

/-- `hasher.update(bs)` starting from state `h₀`. -/
def hashRun (h₀ : Nat) (bs : List Nat) : Nat := bs.foldl hashStep h₀

/-- Digest of a complete byte sequence (`hashlib.sha256(bs).hexdigest()`,
with the hex string modelled by the numeric digest value). -/
def sha256 (bs : List Nat) : Nat := hashRun 5381 bs

/-!
## Deterministic content generator model

`random.Random(batch_i).randbytes(n)` is Python standard-library code
(a Mersenne-Twister generator), not part of this repository. Modelled
from the spec: a deterministic pseudorandom byte stream seeded with the
batch index. `randByte seed i` is the `i`-th byte of the stream for
`seed`; successive `randbytes` calls consume successive stream positions,
so the concatenation of the chunked `rng.randbytes(chunk_size)` calls in
the write loop of `quick_check` / `free_space_sweep` is the length-`n`
prefix of the stream, `genBytes seed n`.
-/

/-- The `i`-th byte of the modelled pseudorandom stream for `seed`. -/
def randByte (seed i : Nat) : Nat :=
  (seed * 6364136223846793005 + i * 1442695040888963407 + 12345) % 256

/-- The first `n` bytes produced by the generator seeded with `seed`:
the content written for a batch of index `seed` and size `n`. -/
def genBytes (seed n : Nat) : List Nat := (List.range n).map (randByte seed)

/-- `expected_hash` for a batch: the digest accumulated while writing the
generated content (`hasher.update(chunk)` per chunk, digest at the end).
Since the digest is chunk-insensitive it equals the digest of the whole
generated content. -/
def writeExpectedHash (seed n : Nat) : Nat := sha256 (genBytes seed n)

/-!
## Batch planner

Embeds the loop shared by `quick_check` (`src/sentinel/core.py` lines
56-61) and `free_space_sweep` (`src/sentinel/sweep.py` lines 196-201):

    batch_sizes = []
    remaining = size_bytes
    while remaining > 0:
        batch_sizes.append(min(remaining, MAX_FILE_BYTES))
        remaining -= batch_sizes[-1]

`planLoop` carries a fuel argument bounding the iteration count; `n`
units of fuel always suffice because each iteration removes at least one
byte whenever `0 < m` (in the source `m` is the constant
`MAX_FILE_BYTES > 0`, so the fuel-exhausted branch is unreachable).
-/

/-- The planner loop: `planLoop m fuel remaining` appends
`min remaining m` and recurses until `remaining = 0`. -/
def planLoop (m : Nat) : Nat → Nat → List Nat
  | _, 0 => []
  | 0, _ + 1 => []
  | fuel + 1, r + 1 => min (r + 1) m :: planLoop m fuel (r + 1 - min (r + 1) m)

/-- The planned batch sizes for total `n` and per-file cap `m`. -/
def planBatches (n m : Nat) : List Nat := planLoop m n n

/-!
## Python `round`

`round` on a float is Python standard-library behaviour, not repository
code. Modelled from the spec's `round(100 * bytes_tested / bytes_total)`:
round-half-to-even on the exact rational value (CPython rounds the
correctly-rounded float quotient half-to-even; at the operand sizes in
this program the two agree away from representation-noise ties).
-/

/-- Round half to even on rationals (Python's built-in `round`). -/
def pyRound (q : ℚ) : Int :=
  let f := ⌊q⌋
  if q - f < 1 / 2 then f
  else if 1 / 2 < q - f then f + 1
  else if f % 2 = 0 then f else f + 1

/-!
## Write-verify-delete cycle

Embeds the batch loops of `quick_check` (`src/sentinel/core.py` lines
82-208) and `free_space_sweep` (`src/sentinel/sweep.py` lines 219-336).
The two Python loops are verbatim duplicates except for the result
message strings and for the shape of the abort exit (`free_space_sweep`
returns the aborted dict from inside the loop; `quick_check` sets
`aborted = True`, breaks, and builds the same dict after the loop — the
same observable result), so they share one embedded loop parameterised by
the message strings.

The operating system and the device are abstracted into `DriveEnv`:
`get_drive_usage` is the `(totalBytes, freeBytes)` pair, `OSError`s on
directory creation / writes / reads are the `Option String` error texts,
the cooperative `abort_check()` callback polled before batch `i` is
`abortAt i`, and the digest returned by `_hash_file_chunked` on the
`k`-th reread of batch `i` is `read1 i` / `read2 i` (a faithful device
returns `writeExpectedHash i size`; a corrupting device returns anything
else). Progress callbacks are pure notifications and are not modelled.
Temp-file deletion (the `finally` block, best-effort and swallowed) has
no observable effect in the result and is tracked only as effects.
-/

/-- Outcome of rereading a batch file: an `OSError` with its message, or
the digest of the bytes the device returned. -/
inductive ReadRes where
  | err (msg : String)
  | ok (hash : Nat)
deriving DecidableEq, Repr

/-- The environment of one `quick_check` / `free_space_sweep` run. -/
structure DriveEnv where
  /-- `total` from `get_drive_usage(drive_root)`. -/
  totalBytes : Nat
  /-- `free` from `get_drive_usage(drive_root)`. -/
  freeBytes : Nat
  /-- `some e` iff `temp_path.mkdir` raises `OSError(e)`. -/
  mkdirErr : Option String
  /-- Result of polling `abort_check()` before batch `i`. -/
  abortAt : Nat → Bool
  /-- `some e` iff writing batch `i` raises `OSError(e)`. -/
  writeRes : Nat → Option String
  /-- Outcome of the first reread of batch `i`. -/
  read1 : Nat → ReadRes
  /-- Outcome of the second reread of batch `i`. -/
  read2 : Nat → ReadRes

/-- One verification detail record of the batch cycle (the dict appended
to `verification_details`; `match` is `matched` since `match` is a Lean
keyword). -/
structure BatchRecord where
  batch : Nat
  expected_hash : Nat
  read1_hash : Nat
  read2_hash : Option Nat
  matched : Bool
deriving DecidableEq, Repr

/-- Result dict of `quick_check` / `free_space_sweep`. Keys present only
in the aborted dict are `Option` fields (`none` models key absence);
`aborted` models `result.get("aborted", False)`. -/
structure OpResult where
  passed : Bool
  message : String
  details : String
  verification_details : List BatchRecord
  aborted : Bool
  batches_completed : Option Nat
  batches_total : Option Nat
  bytes_tested : Option Nat
  bytes_total : Option Nat
  extrapolated_confidence_pct : Option Int
deriving DecidableEq, Repr

/-- The message strings in which the two otherwise-identical source loops
differ. -/
structure LoopMsgs where
  /-- `"Integrity check failed"` / `"Free-space sweep failed"`. -/
  failMsg : String
  /-- `"Integrity check passed"` / `"Free-space sweep passed"`. -/
  passMsg : String
  /-- `"Check aborted by user"` / `"Free-space sweep aborted by user"`. -/
  abortMsg : String
  /-- The aborted-details template applied to
  `(batches_completed, batches_total, bytes_tested, bytes_total,
  confidence_pct)`. -/
  abortDetails : Nat → Nat → Nat → Nat → Int → String

/-- A failure return of the batch loop: `passed: False` with the given
message and details and the records accumulated so far (no aborted keys). -/
def failResult (msg details : String) (vd : List BatchRecord) : OpResult :=
  { passed := false, message := msg, details := details,
    verification_details := vd, aborted := false,
    batches_completed := none, batches_total := none,
    bytes_tested := none, bytes_total := none,
    extrapolated_confidence_pct := none }

/-- `confidence_pct = round(100 * bytes_tested / bytes_total) if
bytes_total else 0` from the aborted branches of both loops. -/
def confOf (N bt : Nat) : Int :=
  if N = 0 then 0 else pyRound (100 * (bt : ℚ) / (N : ℚ))

/-- The aborted-return dict built by both loops when `abort_check()`
fires before batch `i`: `batches_done = len(verification_details)`,
`bytes_tested = sum(batch_sizes[i] for i in range(batches_done))`,
`passed = all(v.get("match", False) for v in verification_details)`. -/
def abortedResult (msgs : LoopMsgs) (allS : List Nat) (N : Nat)
    (acc : List BatchRecord) : OpResult :=
  let done := acc.length
  let bt := (allS.take done).sum
  let conf := confOf N bt
  { passed := acc.all (fun r => r.matched), message := msgs.abortMsg,
    details := msgs.abortDetails done allS.length bt N conf,
    verification_details := acc, aborted := true,
    batches_completed := some done, batches_total := some allS.length,
    bytes_tested := some bt, bytes_total := some N,
    extrapolated_confidence_pct := some conf }

/-- The batch loop shared by `quick_check` and `free_space_sweep`.
`allS` is the full planned `batch_sizes` list and `N` the planned total
(`size_bytes` / `usable_bytes`); the loop walks the remaining sizes with
the current batch index `i`, the accumulated `verification_details`
`acc`, and the count `wr` of file writes attempted so far. Returns the
result dict and the final write count. -/
def batchLoop (msgs : LoopMsgs) (env : DriveEnv) (allS : List Nat) (N : Nat) :
    List Nat → Nat → List BatchRecord → Nat → OpResult × Nat
  | [], _, acc, wr =>
    ({ passed := true, message := msgs.passMsg,
       details := s!"Verified {allS.length} batches, {N} bytes total.",
       verification_details := acc, aborted := false,
       batches_completed := none, batches_total := none,
       bytes_tested := none, bytes_total := none,
       extrapolated_confidence_pct := none }, wr)
  | fsize :: rest, i, acc, wr =>
    if env.abortAt i then
      (abortedResult msgs allS N acc, wr)
    else
      match env.writeRes i with
      | some e =>
        (failResult msgs.failMsg s!"Write error (batch {i + 1}): {e}" acc, wr + 1)
      | none =>
        let expected := writeExpectedHash i fsize
        match env.read1 i with
        | .err e =>
          (failResult msgs.failMsg s!"Read error (batch {i + 1}): {e}" acc, wr + 1)
        | .ok h1 =>
          if h1 ≠ expected then
            (failResult msgs.failMsg
              s!"Hash mismatch on batch {i + 1} (first read)."
              (acc ++ [{ batch := i + 1, expected_hash := expected,
                         read1_hash := h1, read2_hash := none,
                         matched := false }]), wr + 1)
          else
            match env.read2 i with
            | .err e =>
              (failResult msgs.failMsg
                s!"Read error (batch {i + 1}, second pass): {e}" acc, wr + 1)
            | .ok h2 =>
              let mtch := (h1 == expected) && (h2 == expected) && (h1 == h2)
              let rcd : BatchRecord :=
                { batch := i + 1, expected_hash := expected,
                  read1_hash := h1, read2_hash := some h2, matched := mtch }
              if mtch then
                batchLoop msgs env allS N rest (i + 1) (acc ++ [rcd]) (wr + 1)
              else
                (failResult msgs.failMsg
                  s!"Hash mismatch on batch {i + 1} (second read)."
                  (acc ++ [rcd]), wr + 1)

/-- The message strings of `quick_check` (`src/sentinel/core.py`). -/
def qcMsgs : LoopMsgs :=
  { failMsg := "Integrity check failed",
    passMsg := "Integrity check passed",
    abortMsg := "Check aborted by user",
    abortDetails := fun done total bt n conf =>
      s!"{done}/{total} batches completed, all passed. {bt} of {n} bytes tested (~{conf}%). Extrapolated: no failures in tested area." }

/-- The message strings of `free_space_sweep` (`src/sentinel/sweep.py`). -/
def fsMsgs : LoopMsgs :=
  { failMsg := "Free-space sweep failed",
    passMsg := "Free-space sweep passed",
    abortMsg := "Free-space sweep aborted by user",
    abortDetails := fun done total bt n conf =>
      s!"{done}/{total} batches completed, all passed. {bt} of {n} bytes (~{conf}%). Extrapolated: no failures in tested area." }

/-- Filesystem side effects of one `quick_check` / `free_space_sweep`
run: whether the temporary test directory was created and how many test
file writes were attempted. -/
structure FsEffects where
  tempDirCreated : Bool
  filesWritten : Nat
deriving DecidableEq, Repr

/-- `usable_bytes = max(0, free_bytes - SAFETY_MARGIN_BYTES)`. -/
def usableBytes (env : DriveEnv) : Nat :=
  (max 0 ((env.freeBytes : Int) - (SAFETY_MARGIN_BYTES : Int))).toNat

/-- `free_space_sweep` (`src/sentinel/sweep.py` lines 177-343). -/
def free_space_sweep (env : DriveEnv) : OpResult × FsEffects :=
  let usable := usableBytes env
  if usable < 1024 then
    (failResult "Free-space sweep failed"
      "Not enough free space (need at least 100 MB free)." [],
     { tempDirCreated := false, filesWritten := 0 })
  else
    match env.mkdirErr with
    | some e =>
      (failResult "Free-space sweep failed"
        s!"Could not create test directory: {e}" [],
       { tempDirCreated := false, filesWritten := 0 })
    | none =>
      let sizes := planBatches usable MAX_FILE_BYTES
      let r := batchLoop fsMsgs env sizes usable sizes 0 [] 0
      (r.1, { tempDirCreated := true, filesWritten := r.2 })

/-- `size_bytes = min(int(size_fraction * total_bytes), usable_bytes)` as
computed by `quick_check` (`int()` truncates; for the nonnegative
fractions the program uses this is the floor, and a negative product
truncates into the failing `< 1024` branch either way). -/
def qcSizeBytes (env : DriveEnv) (size_fraction : ℚ) : Nat :=
  min (⌊size_fraction * (env.totalBytes : ℚ)⌋.toNat) (usableBytes env)

/-- `quick_check` (`src/sentinel/core.py` lines 18-216). -/
def quick_check (env : DriveEnv) (size_fraction : ℚ) : OpResult × FsEffects :=
  let size := qcSizeBytes env size_fraction
  if size < 1024 then
    (failResult "Integrity check failed"
      "Not enough free space for check (need at least 100 MB free)." [],
     { tempDirCreated := false, filesWritten := 0 })
  else
    match env.mkdirErr with
    | some e =>
      (failResult "Integrity check failed"
        s!"Could not create test directory: {e}" [],
       { tempDirCreated := false, filesWritten := 0 })
    | none =>
      let sizes := planBatches size MAX_FILE_BYTES
      let r := batchLoop qcMsgs env sizes size sizes 0 [] 0
      (r.1, { tempDirCreated := true, filesWritten := r.2 })

/-- A drive with only 50 MiB free: the margin exceeds the free space, so
the usable size clamps to 0. -/
def envC7 : DriveEnv :=
  { totalBytes := 52428800, freeBytes := 52428800, mkdirErr := none,
    abortAt := fun _ => false, writeRes := fun _ => none,
    read1 := fun _ => .ok 0, read2 := fun _ => .ok 0 }

/-- An environment whose abort probe fires before the first batch
(1124 KiB free: exactly one 1024-byte batch planned). -/
def envC10 : DriveEnv :=
  { totalBytes := 104858624, freeBytes := 104858624, mkdirErr := none,
    abortAt := fun _ => true, writeRes := fun _ => none,
    read1 := fun _ => .ok 0, read2 := fun _ => .ok 0 }

/-- A device whose first reread of batch 0 returns a digest off by one
from the expected digest (1124 KiB free: one 1024-byte batch planned). -/
def envC4 : DriveEnv :=
  { totalBytes := 104858624, freeBytes := 104858624, mkdirErr := none,
    abortAt := fun _ => false, writeRes := fun _ => none,
    read1 := fun _ => .ok (writeExpectedHash 0 1024 + 1),
    read2 := fun _ => .ok (writeExpectedHash 0 1024) }

/-- A drive with `2 GiB + 1000` bytes usable free space (two planned
batches: `2147483648` and `1000`), a faithful device, and an abort that
fires after the first batch completes. -/
def envC3 : DriveEnv :=
  { totalBytes := 2252342248, freeBytes := 2252342248, mkdirErr := none,
    abortAt := fun i => i == 1,
    writeRes := fun _ => none,
    read1 := fun i => .ok (writeExpectedHash i (if i = 0 then 2147483648 else 1000)),
    read2 := fun i => .ok (writeExpectedHash i (if i = 0 then 2147483648 else 1000)) }

/-- An aborted run (abort before the first batch) used to witness the
amended C3 statement: `bytes_tested = 0`, confidence `0`. -/
def envC3w : DriveEnv :=
  { totalBytes := 104858624, freeBytes := 104858624, mkdirErr := none,
    abortAt := fun _ => true, writeRes := fun _ => none,
    read1 := fun _ => .ok 0, read2 := fun _ => .ok 0 }

/-- The planned batch-size list of a `free_space_sweep` run. -/
def fssSizes (env : DriveEnv) : List Nat :=
  planBatches (usableBytes env) MAX_FILE_BYTES

/-- The planned batch-size list of a `quick_check` run. -/
def qcSizes (env : DriveEnv) (frac : ℚ) : List Nat :=
  planBatches (qcSizeBytes env frac) MAX_FILE_BYTES

/-- A verification record's `expected_hash` is the digest of the content
generated for its batch index and that batch's planned size. -/
def recordInv (allS : List Nat) (r : BatchRecord) : Prop :=
  r.expected_hash = writeExpectedHash (r.batch - 1) (allS.getD (r.batch - 1) 0)

/-- A `free_space_sweep` environment planning one 1024-byte batch whose
first reread disagrees (so the run records batch 0 and stops). -/
def envC5a : DriveEnv :=
  { totalBytes := 104858624, freeBytes := 104858624, mkdirErr := none,
    abortAt := fun _ => false, writeRes := fun _ => none,
    read1 := fun _ => .ok (writeExpectedHash 0 1024 + 1),
    read2 := fun _ => .ok 0 }

/-- Like `envC5a` but with 2048 usable bytes: batch 0 is 2048 bytes. -/
def envC5b : DriveEnv :=
  { totalBytes := 104859648, freeBytes := 104859648, mkdirErr := none,
    abortAt := fun _ => false, writeRes := fun _ => none,
    read1 := fun _ => .ok (writeExpectedHash 0 2048 + 1),
    read2 := fun _ => .ok 0 }

/-- A `quick_check` environment planning one 1024-byte batch with a
first-read mismatch (`+1`). -/
def envC5q : DriveEnv :=
  { totalBytes := 104858624, freeBytes := 104858624, mkdirErr := none,
    abortAt := fun _ => false, writeRes := fun _ => none,
    read1 := fun _ => .ok (writeExpectedHash 0 1024 + 1),
    read2 := fun _ => .ok 0 }

/-- A `free_space_sweep` environment planning one 1024-byte batch with a
different first-read mismatch (`+2`). -/
def envC5f : DriveEnv :=
  { totalBytes := 104858624, freeBytes := 104858624, mkdirErr := none,
    abortAt := fun _ => false, writeRes := fun _ => none,
    read1 := fun _ => .ok (writeExpectedHash 0 1024 + 2),
    read2 := fun _ => .ok 0 }

/-!
## Manifest engine

Embeds `build_manifest`, `save_manifest` / `load_manifest` and
`verify_manifest` from `src/sentinel/sweep.py`. The drive's files are an
association list from normalized relative path
(`str(p.relative_to(root)).replace(chr(92), "/")`) to file state; the
`rglob` enumeration order is the list order. A file that raises
`OSError` on open/read is `unreadable`. Python dict insertion over fresh
keys is modelled by appending to the association list; real filesystems
yield pairwise-distinct paths, which theorems assume as `Nodup` where
needed.
-/

/-- State of one real file on the drive. -/
inductive FileState where
  | readable (content : List Nat)
  | unreadable
deriving DecidableEq, Repr

/-- The drive's real files, in enumeration order. -/
abbrev Drive := List (String × FileState)

/-- An `abort_check` that never fires. -/
def neverAbort : Nat → Bool := fun _ => false

/-- Result tuple of `build_manifest`:
`(manifest_dict, paths hashed, aborted)`. -/
structure BuildResult where
  manifest : List (String × Nat)
  paths : List String
  aborted : Bool
deriving DecidableEq, Repr

/-- The `build_manifest` file loop (`src/sentinel/sweep.py` lines
86-97): abort poll per file, hash readable files, silently skip
unreadable ones. -/
def buildLoop (abortAt : Nat → Bool) :
    List (String × FileState) → Nat → List (String × Nat) → List String →
    BuildResult
  | [], _, man, paths => ⟨man, paths, false⟩
  | (p, st) :: rest, i, man, paths =>
    if abortAt i then ⟨man, paths, true⟩
    else
      match st with
      | .readable c =>
          buildLoop abortAt rest (i + 1) (man ++ [(p, sha256 c)]) (paths ++ [p])
      | .unreadable => buildLoop abortAt rest (i + 1) man paths

/-- `build_manifest` (`src/sentinel/sweep.py` lines 68-98): enumerate
all files excluding the tool's own `Sentinel` directory, then hash each. -/
def build_manifest (d : Drive) (abortAt : Nat → Bool) : BuildResult :=
  buildLoop abortAt (d.filter (fun e => !(e.1.startsWith SENTINEL_DIR))) 0 [] []

/-- One verification detail record of `verify_manifest` (`match` is
`matched`; `read_hash` is the dict's `read_hash` key). -/
structure ManifestRecord where
  path : String
  expected_hash : Nat
  read_hash : Option Nat
  matched : Bool
  note : Option String
deriving DecidableEq, Repr

/-- Result tuple of `verify_manifest`:
`(passed, mismatches, verification_details, aborted)`. -/
structure VerifyResult where
  passed : Bool
  mismatches : List String
  details : List ManifestRecord
  aborted : Bool
deriving DecidableEq, Repr

/-- The `verify_manifest` entry loop (`src/sentinel/sweep.py` lines
136-172): per entry, abort poll, then exactly one of: path gone
(`missing`), open/read failure (`read error`), or re-hash and compare. -/
def verifyLoop (d : Drive) (abortAt : Nat → Bool) :
    List (String × Nat) → Nat → List String → List ManifestRecord →
    VerifyResult
  | [], _, mms, vd => ⟨mms.isEmpty, mms, vd, false⟩
  | (rel, eh) :: rest, i, mms, vd =>
    if abortAt i then ⟨mms.isEmpty, mms, vd, true⟩
    else
      match List.lookup rel d with
      | none =>
          verifyLoop d abortAt rest (i + 1) (mms ++ [rel ++ " (missing)"])
            (vd ++ [⟨rel, eh, none, false, some "missing"⟩])
      | some .unreadable =>
          verifyLoop d abortAt rest (i + 1) (mms ++ [rel ++ " (read error)"])
            (vd ++ [⟨rel, eh, none, false, some "read error"⟩])
      | some (.readable c) =>
          let h := sha256 c
          let mtch := h == eh
          verifyLoop d abortAt rest (i + 1)
            (if mtch then mms else mms ++ [rel])
            (vd ++ [⟨rel, eh, some h, mtch, none⟩])

/-- `verify_manifest` (`src/sentinel/sweep.py` lines 120-174). -/
def verify_manifest (d : Drive) (manifest : List (String × Nat))
    (abortAt : Nat → Bool) : VerifyResult :=
  verifyLoop d abortAt manifest 0 [] []

/-- The record `verify_manifest` produces for one entry (the three
disjoint outcomes, split out of the loop body for the statements). -/
def verifyEntry (d : Drive) (rel : String) (eh : Nat) : ManifestRecord :=
  match List.lookup rel d with
  | none => ⟨rel, eh, none, false, some "missing"⟩
  | some .unreadable => ⟨rel, eh, none, false, some "read error"⟩
  | some (.readable c) => ⟨rel, eh, some (sha256 c), sha256 c == eh, none⟩

/-- The mismatch-list contribution of one entry. -/
def mismatchOf (d : Drive) (rel : String) (eh : Nat) : Option String :=
  match List.lookup rel d with
  | none => some (rel ++ " (missing)")
  | some .unreadable => some (rel ++ " (read error)")
  | some (.readable c) => if sha256 c == eh then none else some rel

/-- A drive whose only file exists but cannot be read. -/
def driveC6 : Drive := [("photo.jpg", .unreadable)]

/-- A drive and stored manifest used to witness C6. -/
def driveC6w : Drive :=
  [("a.txt", .readable [1, 2, 3]), ("b.txt", .readable [4])]

/-- The record `verify_manifest` produces for the deleted entry
`"gone.txt"` of `driveC6w`. -/
def rC6w : ManifestRecord := ⟨"gone.txt", 5, none, false, some "missing"⟩

/-- The manifest entry contributed by one enumerated file: readable
files are hashed, unreadable files are silently skipped. -/
def buildEntry (e : String × FileState) : Option (String × Nat) :=
  match e.2 with
  | .readable c => some (e.1, sha256 c)
  | .unreadable => none

/-- A small drive with a readable file, the tool's own housekeeping file
(excluded from the manifest), and an unreadable file (skipped). -/
def driveC9 : Drive :=
  [("photos/a.jpg", .readable [1, 2, 3]),
   ("Sentinel/.last_sweep", .readable [9]),
   ("bad.bin", .unreadable)]

/-!
## Host-side manifest store and sweep orchestration

Embeds `_manifest_path` / `save_manifest` / `load_manifest` and
`full_sweep` from `src/sentinel/sweep.py`. The host-side manifest store
is a map from the per-drive key (computed by `_manifest_path` from the
drive root) to the stored file, which either parses as a manifest
(`valid`) or fails `json.load` (`corrupt`); a missing file is `none`.
Wall-clock time is a `Nat`; a sweep starts at `startTime` and the write
of the drive-resident timestamp happens `elapsed` time units later, so
`write_last_sweep_timestamp` (which stores `datetime.now()`) records
`startTime + elapsed`. `full_sweep` never touches the host-side config
(`last_sweep_time`), which the effects record as `hostTimestamp`.
-/

/-- A stored host-side manifest file: unparseable (`json.JSONDecodeError`
or `OSError`) or a valid manifest. -/
inductive MFile where
  | corrupt
  | valid (m : List (String × Nat))
deriving DecidableEq, Repr

/-- The per-drive key of `_manifest_path`
(`drive_root.replace(chr(92), "").replace(":", "").upper() or
"UNKNOWN"`): drop backslashes and colons, uppercase, defaulting to
`"UNKNOWN"` when empty. -/
def driveKey (root : String) : String :=
  let letter :=
    String.mk ((root.data.filter (fun c => c != '\\' && c != ':')).map
      Char.toUpper)
  if letter = "" then "UNKNOWN" else letter

/-- `load_manifest` (`src/sentinel/sweep.py` lines 108-117): `None` for
a missing file and for one that fails to parse. -/
def load_manifest (store : String → Option MFile) (root : String) :
    Option (List (String × Nat)) :=
  match store (driveKey root) with
  | none => none
  | some .corrupt => none
  | some (.valid m) => some m

/-- `write_last_sweep_timestamp` (`src/sentinel/sweep.py` lines 51-56)
writes `datetime.now()`: the sweep's start time plus the time elapsed
until the write. -/
def write_last_sweep_timestamp (startTime elapsed : Nat) : Nat :=
  startTime + elapsed

/-- The world one `full_sweep` invocation runs in. -/
structure FullWorld where
  /-- The drive root string, e.g. `"G:\\"`. -/
  driveRoot : String
  /-- The host-side manifest store (`~/Sentinel/manifests/<key>.json`). -/
  hostStore : String → Option MFile
  /-- The drive's real files. -/
  drive : Drive
  /-- `abort_check` polls during a manifest build, per file. -/
  buildAbort : Nat → Bool
  /-- `abort_check` polls during a manifest verify, per entry. -/
  verifyAbort : Nat → Bool
  /-- The free-space phase's environment. -/
  fsEnv : DriveEnv
  /-- Wall-clock time when the sweep starts. -/
  startTime : Nat
  /-- Time elapsed from the start until the timestamp write. -/
  elapsed : Nat

/-- Result dict of `full_sweep` (`verification_details` is the two-key
dict `{"manifest": ..., "free_space": ...}`; `aborted` models
`get("aborted", False)`). -/
structure FullResult where
  passed : Bool
  message : String
  details : String
  manifest_passed : Bool
  free_space_passed : Bool
  manifest_details : List ManifestRecord
  free_space_details : List BatchRecord
  aborted : Bool
deriving DecidableEq, Repr

/-- Externally visible side effects of one `full_sweep` run: the phase
notifications (`manifest_callback`), the host-side manifest write
(`save_manifest`, with its store key), the drive-resident timestamp
write, and the host-side config `last_sweep_time` write (never performed
by `full_sweep`). -/
structure SweepEffects where
  phases : List String
  savedManifest : Option (String × List (String × Nat))
  driveTimestamp : Option Nat
  hostTimestamp : Option Nat
deriving DecidableEq, Repr

/-- Steps 3-4 of `full_sweep` (`src/sentinel/sweep.py` lines 418-443):
the free-space phase shared by the build and verify branches, followed —
only when the sweep neither aborted nor failed — by the timestamp write. -/
def sweepFreeSpacePhase (w : FullWorld) (parts : List String)
    (manifest_passed : Bool) (manifest_details : List ManifestRecord)
    (phases : List String)
    (savedM : Option (String × List (String × Nat))) :
    FullResult × SweepEffects :=
  let fs := (free_space_sweep w.fsEnv).1
  if fs.aborted then
    ({ passed := true, message := "Full sweep aborted",
       details := String.intercalate "\n" parts ++ "\n" ++ fs.details,
       manifest_passed := manifest_passed,
       free_space_passed := fs.passed,
       manifest_details := manifest_details,
       free_space_details := fs.verification_details, aborted := true },
     { phases := phases ++ ["free_space"], savedManifest := savedM,
       driveTimestamp := none, hostTimestamp := none })
  else if fs.passed = false then
    ({ passed := false, message := "Full sweep failed",
       details := String.intercalate "\n"
         (parts ++ ["Free-space sweep failed: " ++ fs.details]),
       manifest_passed := manifest_passed,
       free_space_passed := fs.passed,
       manifest_details := manifest_details,
       free_space_details := fs.verification_details, aborted := false },
     { phases := phases ++ ["free_space"], savedManifest := savedM,
       driveTimestamp := none, hostTimestamp := none })
  else
    ({ passed := true, message := "Full sweep passed",
       details := String.intercalate "\n" (parts ++ [fs.details]),
       manifest_passed := manifest_passed,
       free_space_passed := fs.passed,
       manifest_details := manifest_details,
       free_space_details := fs.verification_details, aborted := false },
     { phases := phases ++ ["free_space"], savedManifest := savedM,
       driveTimestamp :=
         some (write_last_sweep_timestamp w.startTime w.elapsed),
       hostTimestamp := none })

/-- The human-readable line for a failed manifest verification:
first five mismatched paths plus a count of the rest. -/
def verifyFailLine (mms : List String) : String :=
  s!"File verification failed ({mms.length} mismatch(es)): " ++
    String.intercalate "; " (mms.take 5) ++
    (if mms.length > 5 then s!" … and {mms.length - 5} more" else "")

/-- `full_sweep` (`src/sentinel/sweep.py` lines 346-443). -/
def full_sweep (w : FullWorld) : FullResult × SweepEffects :=
  match load_manifest w.hostStore w.driveRoot with
  | none =>
      let b := build_manifest w.drive w.buildAbort
      if b.aborted then
        ({ passed := true, message := "Full sweep aborted",
           details := s!"Manifest build aborted. {b.paths.length} files hashed. No manifest saved; no timestamp written.",
           manifest_passed := true, free_space_passed := true,
           manifest_details := [], free_space_details := [],
           aborted := true },
         { phases := ["build_manifest"], savedManifest := none,
           driveTimestamp := none, hostTimestamp := none })
      else
        sweepFreeSpacePhase w ["Manifest built (new card)."] true []
          ["build_manifest"] (some (driveKey w.driveRoot, b.manifest))
  | some manifest =>
      let v := verify_manifest w.drive manifest w.verifyAbort
      if v.aborted then
        ({ passed := true, message := "Full sweep aborted",
           details := s!"File verification aborted. {(v.details.filter (fun r => r.matched)).length}/{v.details.length} files verified, all matched. No timestamp written.",
           manifest_passed := v.passed, free_space_passed := true,
           manifest_details := v.details, free_space_details := [],
           aborted := true },
         { phases := ["verify_manifest"], savedManifest := none,
           driveTimestamp := none, hostTimestamp := none })
      else if v.passed = false then
        ({ passed := false, message := "Full sweep failed",
           details := verifyFailLine v.mismatches,
           manifest_passed := v.passed, free_space_passed := true,
           manifest_details := v.details, free_space_details := [],
           aborted := false },
         { phases := ["verify_manifest"], savedManifest := none,
           driveTimestamp := none, hostTimestamp := none })
      else
        sweepFreeSpacePhase w ["File verification passed."] v.passed
          v.details ["verify_manifest"] none

/-- A faithful free-space environment with exactly one 1024-byte batch. -/
def envC1fs : DriveEnv :=
  { totalBytes := 104858624, freeBytes := 104858624, mkdirErr := none,
    abortAt := fun _ => false, writeRes := fun _ => none,
    read1 := fun _ => .ok (writeExpectedHash 0 1024),
    read2 := fun _ => .ok (writeExpectedHash 0 1024) }

/-- A first-ever sweep of an empty, healthy drive: no stored manifest
(build phase), faithful device, sweep starts at time 5 and takes 7. -/
def worldC1 : FullWorld :=
  { driveRoot := "G:\\", hostStore := fun _ => none, drive := [],
    buildAbort := neverAbort, verifyAbort := neverAbort,
    fsEnv := envC1fs, startTime := 5, elapsed := 7 }

/-- A minimal free-space environment (no free space: the phase fails
fast, which does not matter for the manifest-persistence witness). -/
def envC8fs : DriveEnv :=
  { totalBytes := 0, freeBytes := 0, mkdirErr := none,
    abortAt := fun _ => false, writeRes := fun _ => none,
    read1 := fun _ => .ok 0, read2 := fun _ => .ok 0 }

/-- A first-ever sweep world with an empty host store. -/
def worldC8 : FullWorld :=
  { driveRoot := "G:\\", hostStore := fun _ => none, drive := [],
    buildAbort := neverAbort, verifyAbort := neverAbort,
    fsEnv := envC8fs, startTime := 0, elapsed := 0 }

/-- Updating the hasher with two chunks in sequence equals updating it with
their concatenation: the digest is a pure content hash, insensitive to
chunk boundaries (the contract of `hashlib.sha256` used by both the
chunked writer and `_hash_file_chunked`). -/
theorem hashRun_append (h₀ : Nat) (xs ys : List Nat) :
    hashRun (hashRun h₀ xs) ys = hashRun h₀ (xs ++ ys) :=
  (List.foldl_append ..).symm

/-- Closed form of the planner loop: `⌊r/m⌋` full batches of size `m`
followed by the remainder `r % m` when it is nonzero. -/
theorem planLoop_eq (m : Nat) (hm : 0 < m) :
    ∀ fuel r, r ≤ fuel →
      planLoop m fuel r =
        List.replicate (r / m) m ++ (if r % m = 0 then [] else [r % m]) := by
  intro fuel
  induction fuel with
  | zero =>
      intro r hr
      interval_cases r
      simp [planLoop]
  | succ fuel ih =>
      intro r hr
      match r with
      | 0 => simp [planLoop]
      | r + 1 =>
        have hmin : 0 < min (r + 1) m := by omega
        rw [planLoop, ih (r + 1 - min (r + 1) m) (by omega)]
        rcases le_or_lt m (r + 1) with hle | hlt
        · have h1 : min (r + 1) m = m := by omega
          have h2 : (r + 1) / m = (r + 1 - m) / m + 1 :=
            Nat.div_eq_sub_div hm hle
          have h3 : (r + 1) % m = (r + 1 - m) % m := Nat.mod_eq_sub_mod hle
          rw [h1, h2, h3, List.replicate_succ]
          simp
        · have h1 : min (r + 1) m = r + 1 := by omega
          have h2 : (r + 1) / m = 0 := Nat.div_eq_of_lt hlt
          have h3 : (r + 1) % m = r + 1 := Nat.mod_eq_of_lt hlt
          rw [h1, h2, h3]
          simp [planLoop]

/-- Closed form of `planBatches`. -/
theorem planBatches_eq (n m : Nat) (hm : 0 < m) :
    planBatches n m =
      List.replicate (n / m) m ++ (if n % m = 0 then [] else [n % m]) :=
  planLoop_eq m hm n n le_rfl

/-- For positive totals the planner emits `min n m` first and then plans
the rest: one unfolding of the source loop. -/
theorem planBatches_cons (n m : Nat) (hn : 0 < n) :
    planBatches n m = min n m :: planLoop m (n - 1) (n - min n m) := by
  match n, hn with
  | n + 1, _ => rfl

/-- The planned sizes sum to the requested total. -/
theorem planBatches_sum (n m : Nat) (hm : 0 < m) :
    (planBatches n m).sum = n := by
  rw [planBatches_eq n m hm]
  rcases Nat.eq_zero_or_pos (n % m) with h | h
  · rw [if_pos h, List.append_nil, List.sum_replicate, smul_eq_mul,
      Nat.div_mul_cancel (Nat.dvd_of_mod_eq_zero h)]
  · rw [if_neg (Nat.pos_iff_ne_zero.mp h), List.sum_append, List.sum_replicate,
      smul_eq_mul, List.sum_cons, List.sum_nil, Nat.add_zero, Nat.mul_comm]
    exact Nat.div_add_mod n m

/-- Every planned size is at most the cap `m`. -/
theorem planBatches_le (n m : Nat) (hm : 0 < m) :
    ∀ b ∈ planBatches n m, b ≤ m := by
  rw [planBatches_eq n m hm]
  intro b hb
  rcases List.mem_append.mp hb with h | h
  · exact (List.eq_of_mem_replicate h).le
  · rcases Nat.eq_zero_or_pos (n % m) with h0 | h0
    · simp [h0] at h
    · simp [Nat.pos_iff_ne_zero.mp h0] at h
      subst h
      exact (Nat.mod_lt n hm).le

/-- The plan is empty exactly when the requested total is zero. -/
theorem planBatches_empty_iff (n m : Nat) (hm : 0 < m) :
    planBatches n m = [] ↔ n = 0 := by
  rw [planBatches_eq n m hm]
  constructor
  · intro h
    rcases Nat.eq_zero_or_pos (n % m) with h0 | h0
    · have hd : m ∣ n := Nat.dvd_of_mod_eq_zero h0
      simp [h0] at h
      rcases Nat.eq_zero_or_pos n with hn | hn
      · exact hn
      · exact absurd h (by
          have : 0 < n / m := Nat.div_pos (Nat.le_of_dvd hn hd) hm
          omega)
    · simp [Nat.pos_iff_ne_zero.mp h0] at h
  · intro h
    subst h
    simp

/-- Every batch but the last has the full cap size `m`: only the final
batch absorbs the remainder. -/
theorem planBatches_dropLast (n m : Nat) (hm : 0 < m) :
    ∀ b ∈ (planBatches n m).dropLast, b = m := by
  rw [planBatches_eq n m hm]
  intro b hb
  rcases Nat.eq_zero_or_pos (n % m) with h0 | h0
  · rw [if_pos h0, List.append_nil] at hb
    exact List.eq_of_mem_replicate ((List.dropLast_prefix _).subset hb)
  · rw [if_neg (Nat.pos_iff_ne_zero.mp h0), List.dropLast_concat] at hb
    exact List.eq_of_mem_replicate hb

/-- C2: For all totals `N ≥ 0` and caps `M > 0` the batch planner used by
`quick_check` and `free_space_sweep` produces an ordered sequence of batch
sizes summing exactly to `N`, with every element `≤ M`, empty iff
`N = 0`, and with every element before the last equal to `M` (only the
last batch is smaller, absorbing the remainder). -/
theorem c2_batch_planner (n m : Nat) (hm : 0 < m) :
    (planBatches n m).sum = n ∧
    (∀ b ∈ planBatches n m, b ≤ m) ∧
    (planBatches n m = [] ↔ n = 0) ∧
    (∀ b ∈ (planBatches n m).dropLast, b = m) :=
  ⟨planBatches_sum n m hm, planBatches_le n m hm,
    planBatches_empty_iff n m hm, planBatches_dropLast n m hm⟩

/-- Witness for C2 at `N = 5`, `M = 2` (plan `[2, 2, 1]`). -/
theorem c2_batch_planner_witness :
    ((planBatches 5 2).sum = 5 ∧
      (∀ b ∈ planBatches 5 2, b ≤ 2) ∧
      (planBatches 5 2 = [] ↔ 5 = 0) ∧
      (∀ b ∈ (planBatches 5 2).dropLast, b = 2)) ∧
    planBatches 5 2 = [2, 2, 1] :=
  ⟨c2_batch_planner 5 2 (by decide), by decide⟩

/-!
## Step lemmas for the batch loop

One source-loop iteration each, used to evaluate runs symbolically
(without unfolding the digest terms).
-/

/-- Abort poll fires before batch `i`: the loop returns the aborted dict. -/
theorem batchLoop_abort (msgs : LoopMsgs) (env : DriveEnv) (allS : List Nat)
    (N fsize : Nat) (rest : List Nat) (i : Nat) (acc : List BatchRecord)
    (wr : Nat) (h : env.abortAt i = true) :
    batchLoop msgs env allS N (fsize :: rest) i acc wr =
      (abortedResult msgs allS N acc, wr) := by
  simp [batchLoop, h]

/-- A fully successful batch: the device returns exactly the expected
digest on both rereads, so the loop records a matching record and moves
to the next batch. -/
theorem batchLoop_ok_step (msgs : LoopMsgs) (env : DriveEnv) (allS : List Nat)
    (N fsize : Nat) (rest : List Nat) (i : Nat) (acc : List BatchRecord)
    (wr : Nat) (ha : env.abortAt i = false) (hw : env.writeRes i = none)
    (h1 : env.read1 i = .ok (writeExpectedHash i fsize))
    (h2 : env.read2 i = .ok (writeExpectedHash i fsize)) :
    batchLoop msgs env allS N (fsize :: rest) i acc wr =
      batchLoop msgs env allS N rest (i + 1)
        (acc ++ [{ batch := i + 1,
                   expected_hash := writeExpectedHash i fsize,
                   read1_hash := writeExpectedHash i fsize,
                   read2_hash := some (writeExpectedHash i fsize),
                   matched := true }]) (wr + 1) := by
  rw [batchLoop, if_neg (by simp [ha]), hw, h1, h2]
  simp

/-- First-read mismatch on batch `i`: the loop fails immediately with the
"(first read)" message and a record whose `read2_hash` is absent;
the second read is never consulted. -/
theorem batchLoop_read1_mismatch (msgs : LoopMsgs) (env : DriveEnv)
    (allS : List Nat) (N fsize : Nat) (rest : List Nat) (i : Nat)
    (acc : List BatchRecord) (wr : Nat) (h1 : Nat)
    (ha : env.abortAt i = false) (hw : env.writeRes i = none)
    (hr : env.read1 i = .ok h1) (hne : h1 ≠ writeExpectedHash i fsize) :
    batchLoop msgs env allS N (fsize :: rest) i acc wr =
      (failResult msgs.failMsg
        s!"Hash mismatch on batch {i + 1} (first read)."
        (acc ++ [{ batch := i + 1,
                   expected_hash := writeExpectedHash i fsize,
                   read1_hash := h1, read2_hash := none,
                   matched := false }]), wr + 1) := by
  rw [batchLoop, if_neg (by simp [ha]), hw, hr]
  simp [hne]

/-- Second-read mismatch on batch `i` (first read agreed): the loop fails
with the "(second read)" message and a record carrying both read hashes. -/
theorem batchLoop_read2_mismatch (msgs : LoopMsgs) (env : DriveEnv)
    (allS : List Nat) (N fsize : Nat) (rest : List Nat) (i : Nat)
    (acc : List BatchRecord) (wr : Nat) (h2 : Nat)
    (ha : env.abortAt i = false) (hw : env.writeRes i = none)
    (hr1 : env.read1 i = .ok (writeExpectedHash i fsize))
    (hr2 : env.read2 i = .ok h2) (hne : h2 ≠ writeExpectedHash i fsize) :
    batchLoop msgs env allS N (fsize :: rest) i acc wr =
      (failResult msgs.failMsg
        s!"Hash mismatch on batch {i + 1} (second read)."
        (acc ++ [{ batch := i + 1,
                   expected_hash := writeExpectedHash i fsize,
                   read1_hash := writeExpectedHash i fsize,
                   read2_hash := some h2,
                   matched := false }]), wr + 1) := by
  rw [batchLoop, if_neg (by simp [ha]), hw, hr1, hr2]
  simp [hne, beq_eq_false_iff_ne.mpr hne]

/-- Unfolding `free_space_sweep` past the space check and the temp
directory creation. -/
theorem free_space_sweep_eq (env : DriveEnv)
    (h : ¬ usableBytes env < 1024) (hm : env.mkdirErr = none) :
    free_space_sweep env =
      ((batchLoop fsMsgs env (planBatches (usableBytes env) MAX_FILE_BYTES)
          (usableBytes env)
          (planBatches (usableBytes env) MAX_FILE_BYTES) 0 [] 0).1,
       { tempDirCreated := true,
         filesWritten :=
           (batchLoop fsMsgs env
             (planBatches (usableBytes env) MAX_FILE_BYTES)
             (usableBytes env)
             (planBatches (usableBytes env) MAX_FILE_BYTES) 0 [] 0).2 }) := by
  rw [free_space_sweep]
  simp only [if_neg h, hm]

/-- Unfolding `quick_check` past the space check and the temp directory
creation. -/
theorem quick_check_eq (env : DriveEnv) (frac : ℚ)
    (h : ¬ qcSizeBytes env frac < 1024) (hm : env.mkdirErr = none) :
    quick_check env frac =
      ((batchLoop qcMsgs env (planBatches (qcSizeBytes env frac) MAX_FILE_BYTES)
          (qcSizeBytes env frac)
          (planBatches (qcSizeBytes env frac) MAX_FILE_BYTES) 0 [] 0).1,
       { tempDirCreated := true,
         filesWritten :=
           (batchLoop qcMsgs env
             (planBatches (qcSizeBytes env frac) MAX_FILE_BYTES)
             (qcSizeBytes env frac)
             (planBatches (qcSizeBytes env frac) MAX_FILE_BYTES) 0 [] 0).2 }) := by
  rw [quick_check]
  simp only [if_neg h, hm]

/-- C7: whenever `free_bytes` minus the 100 MiB safety margin, clamped
below at 0, is under 1024 bytes, `free_space_sweep` fails with
`passed: False` and the explanatory insufficient-space message, creating
no temporary directory and writing no test file; likewise `quick_check`
when its planned size `min(int(size_fraction * total), usable)` falls
below 1024 bytes. -/
theorem c7_insufficient_space (envF envQ : DriveEnv) (frac : ℚ) :
    (usableBytes envF < 1024 →
      free_space_sweep envF =
        (failResult "Free-space sweep failed"
          "Not enough free space (need at least 100 MB free)." [],
         { tempDirCreated := false, filesWritten := 0 })) ∧
    (qcSizeBytes envQ frac < 1024 →
      quick_check envQ frac =
        (failResult "Integrity check failed"
          "Not enough free space for check (need at least 100 MB free)." [],
         { tempDirCreated := false, filesWritten := 0 })) := by
  constructor
  · intro h
    rw [free_space_sweep]
    simp only [if_pos h]
  · intro h
    rw [quick_check]
    simp only [if_pos h]

/-- Witness for C7 on a drive with 50 MiB free (`size_fraction = 0`
for the quick check). -/
theorem c7_insufficient_space_witness :
    free_space_sweep envC7 =
      (failResult "Free-space sweep failed"
        "Not enough free space (need at least 100 MB free)." [],
       { tempDirCreated := false, filesWritten := 0 }) ∧
    quick_check envC7 0 =
      (failResult "Integrity check failed"
        "Not enough free space for check (need at least 100 MB free)." [],
       { tempDirCreated := false, filesWritten := 0 }) :=
  ⟨(c7_insufficient_space envC7 envC7 0).1 (by decide),
   (c7_insufficient_space envC7 envC7 0).2 (by
      simp [qcSizeBytes, envC7])⟩

/-- Any batch-loop run starting from an all-matched accumulator that
returns the aborted dict returns only matched records and
`passed = True`: a mismatch or I/O error always exits through a
non-aborted failure return before the next abort poll. -/
theorem batchLoop_aborted_inv (msgs : LoopMsgs) (env : DriveEnv)
    (allS : List Nat) (N : Nat) :
    ∀ (rem : List Nat) (i : Nat) (acc : List BatchRecord) (wr : Nat),
      acc.all (fun r => r.matched) = true →
      (batchLoop msgs env allS N rem i acc wr).1.aborted = true →
      (batchLoop msgs env allS N rem i acc wr).1.verification_details.all
          (fun r => r.matched) = true ∧
        (batchLoop msgs env allS N rem i acc wr).1.passed = true := by
  intro rem
  induction rem with
  | nil =>
      intro i acc wr hacc hab
      simp [batchLoop] at hab
  | cons fsize rest ih =>
      intro i acc wr hacc
      by_cases ha : env.abortAt i
      · rw [batchLoop_abort msgs env allS N fsize rest i acc wr ha]
        intro _
        exact ⟨hacc, by simp [abortedResult, hacc]⟩
      · rw [batchLoop, if_neg (by simp [ha])]
        cases hw : env.writeRes i with
        | some e =>
            intro hab
            simp [failResult] at hab
        | none =>
            dsimp only
            cases hr1 : env.read1 i with
            | err e =>
                intro hab
                simp [failResult] at hab
            | ok h1 =>
                dsimp only
                by_cases hne : h1 ≠ writeExpectedHash i fsize
                · rw [if_pos hne]
                  intro hab
                  simp [failResult] at hab
                · rw [if_neg hne]
                  push_neg at hne
                  subst hne
                  cases hr2 : env.read2 i with
                  | err e =>
                      intro hab
                      simp [failResult] at hab
                  | ok h2 =>
                      dsimp only
                      by_cases hm2 : h2 = writeExpectedHash i fsize
                      · subst hm2
                        simp only [beq_self_eq_true, Bool.and_self, if_true]
                        exact ih (i + 1) _ (wr + 1)
                          (by simp [List.all_append, hacc])
                      · simp only [beq_eq_false_iff_ne.mpr hm2,
                          Bool.and_false, Bool.false_and, if_false]
                        intro hab
                        simp [failResult] at hab

/-- C10: an aborted `quick_check` or `free_space_sweep` result carries
only matched verification records, and its `passed` field is therefore
`True`: any batch mismatch or I/O error returns a non-aborted failure
before the next abort poll. -/
theorem c10_aborted_partial_all_passed (envF envQ : DriveEnv) (frac : ℚ) :
    ((free_space_sweep envF).1.aborted = true →
      (free_space_sweep envF).1.verification_details.all
          (fun r => r.matched) = true ∧
        (free_space_sweep envF).1.passed = true) ∧
    ((quick_check envQ frac).1.aborted = true →
      (quick_check envQ frac).1.verification_details.all
          (fun r => r.matched) = true ∧
        (quick_check envQ frac).1.passed = true) := by
  constructor
  · intro hab
    by_cases h : usableBytes envF < 1024
    · rw [free_space_sweep] at hab
      simp only [if_pos h] at hab
      simp [failResult] at hab
    · cases hm : envF.mkdirErr with
      | some e =>
          rw [free_space_sweep] at hab
          simp only [if_neg h, hm] at hab
          simp [failResult] at hab
      | none =>
          rw [free_space_sweep_eq envF h hm] at hab ⊢
          exact batchLoop_aborted_inv fsMsgs envF _ _ _ 0 [] 0 rfl hab
  · intro hab
    by_cases h : qcSizeBytes envQ frac < 1024
    · rw [quick_check] at hab
      simp only [if_pos h] at hab
      simp [failResult] at hab
    · cases hm : envQ.mkdirErr with
      | some e =>
          rw [quick_check] at hab
          simp only [if_neg h, hm] at hab
          simp [failResult] at hab
      | none =>
          rw [quick_check_eq envQ frac h hm] at hab ⊢
          exact batchLoop_aborted_inv qcMsgs envQ _ _ _ 0 [] 0 rfl hab

/-- Witness for C10: both operations aborted before the first batch
report only matched records (vacuously) and `passed = True`. -/
theorem c10_aborted_partial_all_passed_witness :
    ((free_space_sweep envC10).1.verification_details.all
        (fun r => r.matched) = true ∧
      (free_space_sweep envC10).1.passed = true) ∧
    ((quick_check envC10 1).1.verification_details.all
        (fun r => r.matched) = true ∧
      (quick_check envC10 1).1.passed = true) := by
  have husable : usableBytes envC10 = 1024 := by decide
  have habF : (free_space_sweep envC10).1.aborted = true := by
    rw [free_space_sweep_eq envC10 (by omega) rfl, husable,
      planBatches_cons 1024 MAX_FILE_BYTES (by norm_num),
      batchLoop_abort fsMsgs envC10 _ 1024 _ _ 0 [] 0 rfl]
    rfl
  have hsize : qcSizeBytes envC10 1 = 1024 := by
    have htot : envC10.totalBytes = 104858624 := rfl
    simp only [qcSizeBytes, husable, htot]
    norm_num
  have habQ : (quick_check envC10 1).1.aborted = true := by
    rw [quick_check_eq envC10 1 (by omega) rfl, hsize,
      planBatches_cons 1024 MAX_FILE_BYTES (by norm_num),
      batchLoop_abort qcMsgs envC10 _ 1024 _ _ 0 [] 0 rfl]
    rfl
  exact ⟨(c10_aborted_partial_all_passed envC10 envC10 1).1 habF,
    (c10_aborted_partial_all_passed envC10 envC10 1).2 habQ⟩

/-- C4: in the write-verify-delete cycle of both `quick_check` and
`free_space_sweep`, a first reread whose hash differs from
`expected_hash` fails the operation immediately without performing the
second read: the recorded detail for that batch has `read2_hash` absent
and `match: False`, the result has `passed: False`, and the failure
message ("first read") is distinct from the second-read mismatch message
("second read"). Stated for the first batch of each operation; a
second-read mismatch is included for contrast. -/
theorem c4_first_read_mismatch (envF envF2 envQ : DriveEnv) (frac : ℚ)
    (h1 h2 hq : Nat) :
    ((¬ usableBytes envF < 1024) → envF.mkdirErr = none →
      envF.abortAt 0 = false → envF.writeRes 0 = none →
      envF.read1 0 = .ok h1 →
      h1 ≠ writeExpectedHash 0 (min (usableBytes envF) MAX_FILE_BYTES) →
      free_space_sweep envF =
        (failResult "Free-space sweep failed"
          "Hash mismatch on batch 1 (first read)."
          [{ batch := 1,
             expected_hash :=
               writeExpectedHash 0 (min (usableBytes envF) MAX_FILE_BYTES),
             read1_hash := h1, read2_hash := none, matched := false }],
         { tempDirCreated := true, filesWritten := 1 })) ∧
    ((¬ usableBytes envF2 < 1024) → envF2.mkdirErr = none →
      envF2.abortAt 0 = false → envF2.writeRes 0 = none →
      envF2.read1 0 =
        .ok (writeExpectedHash 0 (min (usableBytes envF2) MAX_FILE_BYTES)) →
      envF2.read2 0 = .ok h2 →
      h2 ≠ writeExpectedHash 0 (min (usableBytes envF2) MAX_FILE_BYTES) →
      free_space_sweep envF2 =
        (failResult "Free-space sweep failed"
          "Hash mismatch on batch 1 (second read)."
          [{ batch := 1,
             expected_hash :=
               writeExpectedHash 0 (min (usableBytes envF2) MAX_FILE_BYTES),
             read1_hash :=
               writeExpectedHash 0 (min (usableBytes envF2) MAX_FILE_BYTES),
             read2_hash := some h2, matched := false }],
         { tempDirCreated := true, filesWritten := 1 })) ∧
    ((¬ qcSizeBytes envQ frac < 1024) → envQ.mkdirErr = none →
      envQ.abortAt 0 = false → envQ.writeRes 0 = none →
      envQ.read1 0 = .ok hq →
      hq ≠ writeExpectedHash 0 (min (qcSizeBytes envQ frac) MAX_FILE_BYTES) →
      quick_check envQ frac =
        (failResult "Integrity check failed"
          "Hash mismatch on batch 1 (first read)."
          [{ batch := 1,
             expected_hash :=
               writeExpectedHash 0
                 (min (qcSizeBytes envQ frac) MAX_FILE_BYTES),
             read1_hash := hq, read2_hash := none, matched := false }],
         { tempDirCreated := true, filesWritten := 1 })) ∧
    ("Hash mismatch on batch 1 (first read)." ≠
      "Hash mismatch on batch 1 (second read).") := by
  refine ⟨?_, ?_, ?_, by decide⟩
  · intro hu hm ha hw hr hne
    rw [free_space_sweep_eq envF hu hm,
      planBatches_cons (usableBytes envF) MAX_FILE_BYTES (by omega),
      batchLoop_read1_mismatch fsMsgs envF _ _ _ _ 0 [] 0 h1 ha hw hr hne]
    rfl
  · intro hu hm ha hw hr1 hr2 hne
    rw [free_space_sweep_eq envF2 hu hm,
      planBatches_cons (usableBytes envF2) MAX_FILE_BYTES (by omega),
      batchLoop_read2_mismatch fsMsgs envF2 _ _ _ _ 0 [] 0 h2 ha hw hr1 hr2 hne]
    rfl
  · intro hu hm ha hw hr hne
    rw [quick_check_eq envQ frac hu hm,
      planBatches_cons (qcSizeBytes envQ frac) MAX_FILE_BYTES (by omega),
      batchLoop_read1_mismatch qcMsgs envQ _ _ _ _ 0 [] 0 hq ha hw hr hne]
    rfl

/-- Witness for C4: the concrete first-read mismatch fails immediately
with the "(first read)" message and a record with no second-read hash. -/
theorem c4_first_read_mismatch_witness :
    free_space_sweep envC4 =
      (failResult "Free-space sweep failed"
        "Hash mismatch on batch 1 (first read)."
        [{ batch := 1, expected_hash := writeExpectedHash 0 1024,
           read1_hash := writeExpectedHash 0 1024 + 1, read2_hash := none,
           matched := false }],
       { tempDirCreated := true, filesWritten := 1 }) ∧
    "Hash mismatch on batch 1 (first read)." ≠
      "Hash mismatch on batch 1 (second read)." := by
  have hmin : min (usableBytes envC4) MAX_FILE_BYTES = 1024 := by decide
  have h := (c4_first_read_mismatch envC4 envC4 envC4 1
      (writeExpectedHash 0 1024 + 1) 0 0).1
    (by decide) rfl rfl rfl rfl (by rw [hmin]; omega)
  rw [hmin] at h
  exact ⟨h, (c4_first_read_mismatch envC4 envC4 envC4 1 0 0 0).2.2.2⟩

/-- `pyRound` returns the floor or the floor plus one. -/
theorem pyRound_cases (q : ℚ) : pyRound q = ⌊q⌋ ∨ pyRound q = ⌊q⌋ + 1 := by
  simp only [pyRound]
  split_ifs <;> simp

/-- For `q ≤ 100`, round-half-to-even hits `100` exactly on `q ≥ 99.5`
(at the tie `q = 99.5` the floor `99` is odd, so the round is upward). -/
theorem pyRound_eq_100_iff_ge (q : ℚ) (h100 : q ≤ 100) :
    pyRound q = 100 ↔ 199 / 2 ≤ q := by
  constructor
  · intro h
    by_contra hq
    push_neg at hq
    have hfle : ⌊q⌋ ≤ 99 := by
      have h1 : (⌊q⌋ : ℚ) ≤ q := Int.floor_le q
      have h2 : (⌊q⌋ : ℚ) < 100 := lt_of_le_of_lt h1 (by linarith)
      exact_mod_cast Int.lt_add_one_iff.mp (by exact_mod_cast h2)
    by_cases hf99 : ⌊q⌋ = 99
    · have hfrac : q - ⌊q⌋ < 1 / 2 := by
        rw [hf99]
        push_cast
        linarith
      simp only [pyRound, if_pos hfrac] at h
      omega
    · have hf98 : ⌊q⌋ ≤ 98 := by omega
      rcases pyRound_cases q with hc | hc <;> omega
  · intro hq
    have hf_ge : (99 : ℤ) ≤ ⌊q⌋ := by
      refine Int.le_floor.mpr ?_
      push_cast
      linarith
    have hf_le : ⌊q⌋ ≤ 100 := by
      have : (⌊q⌋ : ℚ) ≤ 100 := le_trans (Int.floor_le q) h100
      exact_mod_cast this
    by_cases hf100 : ⌊q⌋ = 100
    · have hq100 : q = 100 := by
        have h1 : (100 : ℚ) ≤ q := by
          have := Int.floor_le q
          rw [hf100] at this
          exact_mod_cast this
        linarith
      subst hq100
      simp only [pyRound, hf100]
      rw [if_pos (by push_cast; norm_num)]
    · have hf99 : ⌊q⌋ = 99 := by omega
      have hcast : ((⌊q⌋ : ℤ) : ℚ) = 99 := by
        rw [hf99]
        norm_num
      simp only [pyRound, hcast, hf99]
      push_cast
      rw [if_neg (by linarith)]
      simp

/-- The aborted-dict confidence field: it equals the half-even rounding
of `100 * bytes_tested / bytes_total`, and it is `100` exactly when
`199 * bytes_total ≤ 200 * bytes_tested` (tested fraction `≥ 99.5%`). -/
theorem confOf_eq (N bt : Nat) (hN : 0 < N) (hle : bt ≤ N) :
    confOf N bt = pyRound (100 * (bt : ℚ) / (N : ℚ)) ∧
      (confOf N bt = 100 ↔ 199 * N ≤ 200 * bt) := by
  have hNne : N ≠ 0 := Nat.pos_iff_ne_zero.mp hN
  have hNq : (0 : ℚ) < (N : ℚ) := by exact_mod_cast hN
  have hq100 : 100 * (bt : ℚ) / (N : ℚ) ≤ 100 := by
    rw [div_le_iff₀ hNq]
    have : (bt : ℚ) ≤ (N : ℚ) := by exact_mod_cast hle
    linarith
  constructor
  · simp [confOf, hNne]
  · rw [confOf, if_neg hNne, pyRound_eq_100_iff_ge _ hq100,
      div_le_div_iff₀ (by norm_num) hNq]
    constructor
    · intro h
      have : (199 : ℚ) * N ≤ 200 * bt := by linarith
      exact_mod_cast this
    · intro h
      have : (199 : ℚ) * N ≤ 200 * bt := by exact_mod_cast h
      linarith

/-- Any aborted return of the batch loop reports
`bytes_tested = sum(batch_sizes[:k])` for some `k`, `bytes_total = N`,
and confidence `confOf N bytes_tested`. -/
theorem batchLoop_abort_fields (msgs : LoopMsgs) (env : DriveEnv)
    (allS : List Nat) (N : Nat) :
    ∀ (rem : List Nat) (i : Nat) (acc : List BatchRecord) (wr : Nat),
      (batchLoop msgs env allS N rem i acc wr).1.aborted = true →
      ∃ k,
        (batchLoop msgs env allS N rem i acc wr).1.bytes_tested =
            some ((allS.take k).sum) ∧
          (batchLoop msgs env allS N rem i acc wr).1.bytes_total = some N ∧
          (batchLoop msgs env allS N rem i acc wr).1.extrapolated_confidence_pct =
            some (confOf N ((allS.take k).sum)) := by
  intro rem
  induction rem with
  | nil =>
      intro i acc wr hab
      simp [batchLoop] at hab
  | cons fsize rest ih =>
      intro i acc wr
      by_cases ha : env.abortAt i
      · rw [batchLoop_abort msgs env allS N fsize rest i acc wr ha]
        intro _
        exact ⟨acc.length, rfl, rfl, rfl⟩
      · rw [batchLoop, if_neg (by simp [ha])]
        cases hw : env.writeRes i with
        | some e =>
            intro hab
            simp [failResult] at hab
        | none =>
            dsimp only
            cases hr1 : env.read1 i with
            | err e =>
                intro hab
                simp [failResult] at hab
            | ok h1 =>
                dsimp only
                by_cases hne : h1 ≠ writeExpectedHash i fsize
                · rw [if_pos hne]
                  intro hab
                  simp [failResult] at hab
                · rw [if_neg hne]
                  push_neg at hne
                  subst hne
                  cases hr2 : env.read2 i with
                  | err e =>
                      intro hab
                      simp [failResult] at hab
                  | ok h2 =>
                      dsimp only
                      by_cases hm2 : h2 = writeExpectedHash i fsize
                      · subst hm2
                        simp only [beq_self_eq_true, Bool.and_self, if_true]
                        exact ih (i + 1) _ (wr + 1)
                      · simp only [beq_eq_false_iff_ne.mpr hm2,
                          Bool.and_false, Bool.false_and, if_false]
                        intro hab
                        simp [failResult] at hab

/-- The sum of a prefix of a list of naturals is at most the total sum. -/
theorem sum_take_le (l : List Nat) (k : Nat) : (l.take k).sum ≤ l.sum := by
  conv_rhs => rw [← List.take_append_drop k l]
  rw [List.sum_append]
  exact Nat.le_add_right _ _

/-- C3 (amended): for every aborted `quick_check` or `free_space_sweep`,
the reported confidence equals `round(100 * bytes_tested / bytes_total)`
(round half to even), and it equals `100` exactly when
`199 * bytes_total ≤ 200 * bytes_tested` — i.e. when the tested fraction
reaches 99.5%, which can happen with `bytes_tested < bytes_total`. -/
theorem c3_confidence_amended (envF envQ : DriveEnv) (frac : ℚ) :
    ((free_space_sweep envF).1.aborted = true →
      ∀ bt Nt c, (free_space_sweep envF).1.bytes_tested = some bt →
        (free_space_sweep envF).1.bytes_total = some Nt →
        (free_space_sweep envF).1.extrapolated_confidence_pct = some c →
        c = pyRound (100 * (bt : ℚ) / (Nt : ℚ)) ∧
          (c = 100 ↔ 199 * Nt ≤ 200 * bt)) ∧
    ((quick_check envQ frac).1.aborted = true →
      ∀ bt Nt c, (quick_check envQ frac).1.bytes_tested = some bt →
        (quick_check envQ frac).1.bytes_total = some Nt →
        (quick_check envQ frac).1.extrapolated_confidence_pct = some c →
        c = pyRound (100 * (bt : ℚ) / (Nt : ℚ)) ∧
          (c = 100 ↔ 199 * Nt ≤ 200 * bt)) := by
  constructor
  · intro hab bt Nt c hbt hNt hc
    by_cases h : usableBytes envF < 1024
    · rw [free_space_sweep] at hab
      simp only [if_pos h] at hab
      simp [failResult] at hab
    · cases hm : envF.mkdirErr with
      | some e =>
          rw [free_space_sweep] at hab
          simp only [if_neg h, hm] at hab
          simp [failResult] at hab
      | none =>
          rw [free_space_sweep_eq envF h hm] at hab hbt hNt hc
          obtain ⟨k, hbt', hNt', hc'⟩ :=
            batchLoop_abort_fields fsMsgs envF _ _ _ 0 [] 0 hab
          rw [hbt'] at hbt
          rw [hNt'] at hNt
          rw [hc'] at hc
          obtain rfl : bt = _ := (Option.some.injEq _ _).mp hbt.symm
          obtain rfl : Nt = _ := (Option.some.injEq _ _).mp hNt.symm
          obtain rfl : c = _ := (Option.some.injEq _ _).mp hc.symm
          have hle : ((planBatches (usableBytes envF) MAX_FILE_BYTES).take k).sum
              ≤ usableBytes envF := by
            have := sum_take_le (planBatches (usableBytes envF) MAX_FILE_BYTES) k
            rwa [planBatches_sum _ _ (by rw [MAX_FILE_BYTES]; norm_num)] at this
          have := confOf_eq (usableBytes envF) _ (by omega) hle
          exact ⟨this.1, this.2⟩
  · intro hab bt Nt c hbt hNt hc
    by_cases h : qcSizeBytes envQ frac < 1024
    · rw [quick_check] at hab
      simp only [if_pos h] at hab
      simp [failResult] at hab
    · cases hm : envQ.mkdirErr with
      | some e =>
          rw [quick_check] at hab
          simp only [if_neg h, hm] at hab
          simp [failResult] at hab
      | none =>
          rw [quick_check_eq envQ frac h hm] at hab hbt hNt hc
          obtain ⟨k, hbt', hNt', hc'⟩ :=
            batchLoop_abort_fields qcMsgs envQ _ _ _ 0 [] 0 hab
          rw [hbt'] at hbt
          rw [hNt'] at hNt
          rw [hc'] at hc
          obtain rfl : bt = _ := (Option.some.injEq _ _).mp hbt.symm
          obtain rfl : Nt = _ := (Option.some.injEq _ _).mp hNt.symm
          obtain rfl : c = _ := (Option.some.injEq _ _).mp hc.symm
          have hle : ((planBatches (qcSizeBytes envQ frac) MAX_FILE_BYTES).take k).sum
              ≤ qcSizeBytes envQ frac := by
            have := sum_take_le (planBatches (qcSizeBytes envQ frac) MAX_FILE_BYTES) k
            rwa [planBatches_sum _ _ (by rw [MAX_FILE_BYTES]; norm_num)] at this
          have := confOf_eq (qcSizeBytes envQ frac) _ (by omega) hle
          exact ⟨this.1, this.2⟩

/-- The run of `free_space_sweep` on `envC3`, evaluated symbolically. -/
theorem envC3_run :
    free_space_sweep envC3 =
      (abortedResult fsMsgs [2147483648, 1000] 2147484648
        [{ batch := 1, expected_hash := writeExpectedHash 0 2147483648,
           read1_hash := writeExpectedHash 0 2147483648,
           read2_hash := some (writeExpectedHash 0 2147483648),
           matched := true }],
       { tempDirCreated := true, filesWritten := 1 }) := by
  have husable : usableBytes envC3 = 2147484648 := by decide
  have hplan : planBatches 2147484648 MAX_FILE_BYTES = [2147483648, 1000] := by
    rw [planBatches_eq _ _ (by rw [MAX_FILE_BYTES]; norm_num), MAX_FILE_BYTES]
    norm_num
  rw [free_space_sweep_eq envC3 (by rw [husable]; norm_num) rfl, husable, hplan,
    batchLoop_ok_step fsMsgs envC3 _ _ 2147483648 [1000] 0 [] 0 rfl rfl rfl rfl,
    batchLoop_abort fsMsgs envC3 _ _ 1000 [] 1 _ 1 rfl]
  rfl

/-- C3 counterexample: this aborted `free_space_sweep` reports
`extrapolated_confidence_pct = 100` although
`bytes_tested = 2147483648 < 2147484648 = bytes_total` (the tested
fraction `≈ 99.99995%` rounds to 100), so the confidence is not `100`
"only when `bytes_tested == bytes_total`". -/
theorem c3_confidence_counterexample :
    (free_space_sweep envC3).1.aborted = true ∧
    (free_space_sweep envC3).1.extrapolated_confidence_pct = some 100 ∧
    (free_space_sweep envC3).1.bytes_tested = some 2147483648 ∧
    (free_space_sweep envC3).1.bytes_total = some 2147484648 ∧
    (2147483648 : Nat) ≠ 2147484648 := by
  have hconf : confOf 2147484648 2147483648 = 100 :=
    (confOf_eq 2147484648 2147483648 (by norm_num) (by norm_num)).2.mpr
      (by norm_num)
  rw [envC3_run]
  refine ⟨rfl, ?_, rfl, rfl, by norm_num⟩
  show some (confOf 2147484648 ((([2147483648, 1000] : List Nat).take 1).sum)) = some 100
  rw [show ((([2147483648, 1000] : List Nat).take 1).sum) = 2147483648 by rfl, hconf]

/-- The run of `free_space_sweep` on `envC3w`. -/
theorem envC3w_run :
    free_space_sweep envC3w =
      (abortedResult fsMsgs [1024] 1024 [],
       { tempDirCreated := true, filesWritten := 0 }) := by
  have husable : usableBytes envC3w = 1024 := by decide
  have hplan : planBatches 1024 MAX_FILE_BYTES = [1024] := by
    rw [planBatches_eq _ _ (by rw [MAX_FILE_BYTES]; norm_num), MAX_FILE_BYTES]
    norm_num
  rw [free_space_sweep_eq envC3w (by rw [husable]; norm_num) rfl, husable, hplan,
    batchLoop_abort fsMsgs envC3w _ _ 1024 [] 0 [] 0 rfl]

/-- Witness for the amended C3: on the concrete aborted run the reported
confidence is the half-even rounding of `100 * 0 / 1024`, and it is not
`100` (since `199 * 1024 > 200 * 0`). -/
theorem c3_confidence_amended_witness :
    (0 : Int) = pyRound (100 * ((0 : Nat) : ℚ) / ((1024 : Nat) : ℚ)) ∧
      ((0 : Int) = 100 ↔ 199 * 1024 ≤ 200 * (0 : Nat)) := by
  have hab : (free_space_sweep envC3w).1.aborted = true := by
    rw [envC3w_run]
    rfl
  have hbt : (free_space_sweep envC3w).1.bytes_tested = some 0 := by
    rw [envC3w_run]
    rfl
  have hNt : (free_space_sweep envC3w).1.bytes_total = some 1024 := by
    rw [envC3w_run]
    rfl
  have hc : (free_space_sweep envC3w).1.extrapolated_confidence_pct = some 0 := by
    rw [envC3w_run]
    show some (confOf 1024 ((([1024] : List Nat).take 0).sum)) = some 0
    have : confOf 1024 ((([1024] : List Nat).take 0).sum) =
        pyRound (100 * ((0 : Nat) : ℚ) / ((1024 : Nat) : ℚ)) :=
      (confOf_eq 1024 0 (by norm_num) (by norm_num)).1
    rw [this]
    norm_num [pyRound]
  exact (c3_confidence_amended envC3w envC3w 0).1 hab 0 1024 0 hbt hNt hc

/-- If position `i` of `l` is exposed by `drop`, `getD` returns it. -/
theorem getD_of_drop_cons (l : List Nat) :
    ∀ (i a : Nat) (t : List Nat), l.drop i = a :: t → l.getD i 0 = a := by
  induction l with
  | nil =>
      intro i a t h
      simp at h
  | cons x xs ih =>
      intro i a t h
      cases i with
      | zero =>
          simp at h ⊢
          exact h.1
      | succ n =>
          simp only [List.drop_succ_cons] at h
          simp only [List.getD_cons_succ]
          exact ih n a t h

/-- Every record in the batch loop's output satisfies `recordInv`: its
`expected_hash` is determined by its batch index and that batch's
planned size alone. -/
theorem batchLoop_records_inv (msgs : LoopMsgs) (env : DriveEnv)
    (allS : List Nat) (N : Nat) :
    ∀ (rem : List Nat) (i : Nat) (acc : List BatchRecord) (wr : Nat),
      rem = allS.drop i → (∀ r ∈ acc, recordInv allS r) →
      ∀ r ∈ (batchLoop msgs env allS N rem i acc wr).1.verification_details,
        recordInv allS r := by
  intro rem
  induction rem with
  | nil =>
      intro i acc wr _ hacc r hr
      simp only [batchLoop] at hr
      exact hacc r hr
  | cons fsize rest ih =>
      intro i acc wr hrem hacc
      have hfsize : allS.getD i 0 = fsize :=
        getD_of_drop_cons allS i fsize rest hrem.symm
      simp only [List.getD, List.get?_eq_getElem?] at hfsize
      have hrest : rest = allS.drop (i + 1) := by
        have : (allS.drop i).tail = allS.drop (i + 1) := by
          rw [← List.drop_drop]
          simp
        rw [← this, ← hrem]
        rfl
      have hnew : recordInv allS
          { batch := i + 1, expected_hash := writeExpectedHash i fsize,
            read1_hash := writeExpectedHash i fsize,
            read2_hash := some (writeExpectedHash i fsize), matched := true } := by
        simp [recordInv, hfsize]
      by_cases ha : env.abortAt i
      · rw [batchLoop_abort msgs env allS N fsize rest i acc wr ha]
        intro r hr
        exact hacc r hr
      · rw [batchLoop, if_neg (by simp [ha])]
        cases hw : env.writeRes i with
        | some e =>
            intro r hr
            exact hacc r (by simpa [failResult] using hr)
        | none =>
            dsimp only
            cases hr1 : env.read1 i with
            | err e =>
                intro r hr
                exact hacc r (by simpa [failResult] using hr)
            | ok h1 =>
                dsimp only
                by_cases hne : h1 ≠ writeExpectedHash i fsize
                · rw [if_pos hne]
                  intro r hr
                  simp only [failResult] at hr
                  rcases List.mem_append.mp hr with h | h
                  · exact hacc r h
                  · rw [List.mem_singleton.mp h]
                    simp [recordInv, hfsize]
                · rw [if_neg hne]
                  push_neg at hne
                  subst hne
                  cases hr2 : env.read2 i with
                  | err e =>
                      intro r hr
                      exact hacc r (by simpa [failResult] using hr)
                  | ok h2 =>
                      dsimp only
                      by_cases hm2 : h2 = writeExpectedHash i fsize
                      · subst hm2
                        simp only [beq_self_eq_true, Bool.and_self, if_true]
                        refine ih (i + 1) _ (wr + 1) hrest ?_
                        intro r hr
                        rcases List.mem_append.mp hr with h | h
                        · exact hacc r h
                        · rw [List.mem_singleton.mp h]
                          exact hnew
                      · simp only [beq_eq_false_iff_ne.mpr hm2,
                          Bool.and_false, Bool.false_and, if_false]
                        intro r hr
                        simp only [failResult] at hr
                        rcases List.mem_append.mp hr with h | h
                        · exact hacc r h
                        · rw [List.mem_singleton.mp h]
                          simp [recordInv, hfsize]

/-- Every record of a `free_space_sweep` run satisfies `recordInv` for
that run's planned sizes. -/
theorem fss_records_pure (env : DriveEnv) :
    ∀ r ∈ (free_space_sweep env).1.verification_details,
      recordInv (fssSizes env) r := by
  by_cases h : usableBytes env < 1024
  · rw [free_space_sweep]
    simp only [if_pos h]
    intro r hr
    simp [failResult] at hr
  · cases hm : env.mkdirErr with
    | some e =>
        rw [free_space_sweep]
        simp only [if_neg h, hm]
        intro r hr
        simp [failResult] at hr
    | none =>
        rw [free_space_sweep_eq env h hm]
        exact batchLoop_records_inv fsMsgs env _ _ _ 0 [] 0
          (List.drop_zero _).symm (by simp)

/-- Every record of a `quick_check` run satisfies `recordInv` for that
run's planned sizes. -/
theorem qc_records_pure (env : DriveEnv) (frac : ℚ) :
    ∀ r ∈ (quick_check env frac).1.verification_details,
      recordInv (qcSizes env frac) r := by
  by_cases h : qcSizeBytes env frac < 1024
  · rw [quick_check]
    simp only [if_pos h]
    intro r hr
    simp [failResult] at hr
  · cases hm : env.mkdirErr with
    | some e =>
        rw [quick_check]
        simp only [if_neg h, hm]
        intro r hr
        simp [failResult] at hr
    | none =>
        rw [quick_check_eq env frac h hm]
        exact batchLoop_records_inv qcMsgs env _ _ _ 0 [] 0
          (List.drop_zero _).symm (by simp)

/-- C5 (amended): `expected_hash` is a pure function of the batch index
*and the batch size*: in any two runs — here a `quick_check` run and a
`free_space_sweep` run — batches with the same index whose planned sizes
agree carry the same `expected_hash`. (The claim's "regardless of batch
size" is refuted by `c5_expected_hash_counterexample`.) -/
theorem c5_expected_hash_pure (envQ : DriveEnv) (fracQ : ℚ) (envF : DriveEnv)
    (i : Nat) (rA rB : BatchRecord)
    (hA : rA ∈ (quick_check envQ fracQ).1.verification_details)
    (hB : rB ∈ (free_space_sweep envF).1.verification_details)
    (hiA : rA.batch = i + 1) (hiB : rB.batch = i + 1)
    (hsz : (qcSizes envQ fracQ).getD i 0 = (fssSizes envF).getD i 0) :
    rA.expected_hash = rB.expected_hash := by
  have h1 := qc_records_pure envQ fracQ rA hA
  have h2 := fss_records_pure envF rB hB
  rw [recordInv] at h1 h2
  rw [h1, h2, hiA, hiB]
  simp only [Nat.add_sub_cancel]
  rw [hsz]

/-- C5 counterexample: two runs both process batch index 0, but with
batch sizes 1024 and 2048; the generated contents (`genBytes 0 1024` vs
`genBytes 0 2048`) differ — the content, and hence `expected_hash`, is
not a function of the batch index alone. -/
theorem c5_expected_hash_counterexample :
    (free_space_sweep envC5a).1.verification_details.map
        (fun r => (r.batch, r.expected_hash)) =
      [(1, writeExpectedHash 0 1024)] ∧
    (free_space_sweep envC5b).1.verification_details.map
        (fun r => (r.batch, r.expected_hash)) =
      [(1, writeExpectedHash 0 2048)] ∧
    genBytes 0 1024 ≠ genBytes 0 2048 := by
  refine ⟨?_, ?_, ?_⟩
  · have husable : usableBytes envC5a = 1024 := by decide
    have hplan : planBatches 1024 MAX_FILE_BYTES = [1024] := by
      rw [planBatches_eq _ _ (by rw [MAX_FILE_BYTES]; norm_num), MAX_FILE_BYTES]
      norm_num
    rw [free_space_sweep_eq envC5a (by rw [husable]; norm_num) rfl, husable,
      hplan,
      batchLoop_read1_mismatch fsMsgs envC5a _ _ 1024 [] 0 [] 0
        (writeExpectedHash 0 1024 + 1) rfl rfl rfl (by omega)]
    simp [failResult]
  · have husable : usableBytes envC5b = 2048 := by decide
    have hplan : planBatches 2048 MAX_FILE_BYTES = [2048] := by
      rw [planBatches_eq _ _ (by rw [MAX_FILE_BYTES]; norm_num), MAX_FILE_BYTES]
      norm_num
    rw [free_space_sweep_eq envC5b (by rw [husable]; norm_num) rfl, husable,
      hplan,
      batchLoop_read1_mismatch fsMsgs envC5b _ _ 2048 [] 0 [] 0
        (writeExpectedHash 0 2048 + 1) rfl rfl rfl (by omega)]
    simp [failResult]
  · intro h
    have := congrArg List.length h
    simp [genBytes] at this

/-- Witness for the amended C5: a `quick_check` run and a
`free_space_sweep` run with equal batch-0 sizes record equal
`expected_hash` even though their read-back hashes differ. -/
theorem c5_expected_hash_pure_witness :
    (⟨1, writeExpectedHash 0 1024, writeExpectedHash 0 1024 + 1, none,
        false⟩ : BatchRecord).expected_hash =
      (⟨1, writeExpectedHash 0 1024, writeExpectedHash 0 1024 + 2, none,
        false⟩ : BatchRecord).expected_hash := by
  have husableQ : usableBytes envC5q = 1024 := by decide
  have hsizeQ : qcSizeBytes envC5q 1 = 1024 := by
    have htot : envC5q.totalBytes = 104858624 := rfl
    simp only [qcSizeBytes, husableQ, htot]
    norm_num
  have husableF : usableBytes envC5f = 1024 := by decide
  have hplan : planBatches 1024 MAX_FILE_BYTES = [1024] := by
    rw [planBatches_eq _ _ (by rw [MAX_FILE_BYTES]; norm_num), MAX_FILE_BYTES]
    norm_num
  have hrunQ : (quick_check envC5q 1).1.verification_details =
      [⟨1, writeExpectedHash 0 1024, writeExpectedHash 0 1024 + 1, none,
        false⟩] := by
    rw [quick_check_eq envC5q 1 (by rw [hsizeQ]; norm_num) rfl, hsizeQ, hplan,
      batchLoop_read1_mismatch qcMsgs envC5q _ _ 1024 [] 0 [] 0
        (writeExpectedHash 0 1024 + 1) rfl rfl rfl (by omega)]
    simp [failResult]
  have hrunF : (free_space_sweep envC5f).1.verification_details =
      [⟨1, writeExpectedHash 0 1024, writeExpectedHash 0 1024 + 2, none,
        false⟩] := by
    rw [free_space_sweep_eq envC5f (by rw [husableF]; norm_num) rfl, husableF,
      hplan,
      batchLoop_read1_mismatch fsMsgs envC5f _ _ 1024 [] 0 [] 0
        (writeExpectedHash 0 1024 + 2) rfl rfl rfl (by omega)]
    simp [failResult]
  refine c5_expected_hash_pure envC5q 1 envC5f 0 _ _ ?_ ?_ rfl rfl ?_
  · rw [hrunQ]
    exact List.mem_singleton_self _
  · rw [hrunF]
    exact List.mem_singleton_self _
  · show (qcSizes envC5q 1).getD 0 0 = (fssSizes envC5f).getD 0 0
    rw [qcSizes, fssSizes, hsizeQ, husableF, hplan]

/-- Closed form of the verification loop when the abort probe never
fires: one record per entry in order, and the mismatch list is the
entries' mismatch contributions. -/
theorem verifyLoop_no_abort (d : Drive) :
    ∀ (entries : List (String × Nat)) (i : Nat) (mms : List String)
      (vd : List ManifestRecord),
      verifyLoop d neverAbort entries i mms vd =
        ⟨(mms ++ entries.filterMap (fun e => mismatchOf d e.1 e.2)).isEmpty,
         mms ++ entries.filterMap (fun e => mismatchOf d e.1 e.2),
         vd ++ entries.map (fun e => verifyEntry d e.1 e.2), false⟩ := by
  intro entries
  induction entries with
  | nil =>
      intro i mms vd
      simp [verifyLoop]
  | cons e rest ih =>
      intro i mms vd
      obtain ⟨rel, eh⟩ := e
      rw [verifyLoop]
      simp only [neverAbort, Bool.false_eq_true, if_false]
      cases hl : List.lookup rel d with
      | none =>
          dsimp only
          rw [ih]
          simp [mismatchOf, verifyEntry, hl]
      | some st =>
          cases st with
          | unreadable =>
              dsimp only
              rw [ih]
              simp [mismatchOf, verifyEntry, hl]
          | readable c =>
              dsimp only
              by_cases hb : (sha256 c == eh) = true
              · have hbeq : sha256 c = eh := by simpa using hb
                rw [if_pos hb, ih]
                simp [mismatchOf, verifyEntry, hl, hb, hbeq]
              · have hbeq : ¬ sha256 c = eh := by simpa using hb
                rw [if_neg hb, ih]
                simp [mismatchOf, verifyEntry, hl, hb, hbeq]

/-- C6 (amended): with no abort, `verify_manifest` attempts every entry
and produces exactly one record per entry in order; each record has
exactly one of three disjoint outcomes — match-comparison (`note` null,
observed hash present), missing path (`note` `"missing"`, no observed
hash), or unreadable file (`note` `"read error"`, with a space — the
claim's `"read_error"` spelling is refuted in the counterexample) — and
the verification passes iff the mismatch list is empty. -/
theorem c6_verify_manifest_outcomes (d : Drive) (m : List (String × Nat)) :
    (verify_manifest d m neverAbort).aborted = false ∧
    (verify_manifest d m neverAbort).details =
      m.map (fun e => verifyEntry d e.1 e.2) ∧
    (∀ r ∈ (verify_manifest d m neverAbort).details,
      (r.note = none ∧ ∃ c, List.lookup r.path d = some (.readable c) ∧
        r.read_hash = some (sha256 c) ∧
        (r.matched = true ↔ sha256 c = r.expected_hash)) ∨
      (r.note = some "missing" ∧ r.read_hash = none ∧ r.matched = false ∧
        List.lookup r.path d = none) ∨
      (r.note = some "read error" ∧ r.read_hash = none ∧ r.matched = false ∧
        List.lookup r.path d = some .unreadable)) ∧
    ((verify_manifest d m neverAbort).passed = true ↔
      (verify_manifest d m neverAbort).mismatches = []) := by
  rw [verify_manifest, verifyLoop_no_abort]
  refine ⟨rfl, by simp, ?_, ?_⟩
  · intro r hr
    simp only [List.nil_append, List.mem_map] at hr
    obtain ⟨e, _, rfl⟩ := hr
    rw [verifyEntry]
    cases hl : List.lookup e.1 d with
    | none =>
        right
        left
        exact ⟨rfl, rfl, rfl, hl⟩
    | some st =>
        cases st with
        | unreadable =>
            right
            right
            exact ⟨rfl, rfl, rfl, hl⟩
        | readable c =>
            left
            refine ⟨rfl, c, hl, rfl, ?_⟩
            simp [beq_iff_eq]
  · simp [List.isEmpty_iff]

/-- C6 counterexample: for an existing-but-unreadable file the recorded
note is the string `"read error"` (with a space), not `"read_error"` as
the claim states. -/
theorem c6_verify_manifest_counterexample :
    (verify_manifest driveC6 [("photo.jpg", 123)] neverAbort).details.map
        (fun r => r.note) = [some "read error"] ∧
    some "read error" ≠ some "read_error" := by
  constructor
  · decide
  · decide

/-- Witness for C6: the record of a deleted manifest entry
(`"gone.txt"`) takes exactly the missing outcome. -/
theorem c6_verify_manifest_outcomes_witness :
    (rC6w.note = none ∧ ∃ c,
      List.lookup rC6w.path driveC6w = some (.readable c) ∧
      rC6w.read_hash = some (sha256 c) ∧
      (rC6w.matched = true ↔ sha256 c = rC6w.expected_hash)) ∨
    (rC6w.note = some "missing" ∧ rC6w.read_hash = none ∧
      rC6w.matched = false ∧ List.lookup rC6w.path driveC6w = none) ∨
    (rC6w.note = some "read error" ∧ rC6w.read_hash = none ∧
      rC6w.matched = false ∧
      List.lookup rC6w.path driveC6w = some .unreadable) :=
  (c6_verify_manifest_outcomes driveC6w
      [("a.txt", sha256 [1, 2, 3]), ("gone.txt", 5)]).2.2.1
    rC6w (by decide)

/-- Closed form of the build loop when the abort probe never fires. -/
theorem buildLoop_no_abort :
    ∀ (files : List (String × FileState)) (i : Nat)
      (man : List (String × Nat)) (paths : List String),
      buildLoop neverAbort files i man paths =
        ⟨man ++ files.filterMap buildEntry,
         paths ++ files.filterMap (fun e => (buildEntry e).map Prod.fst),
         false⟩ := by
  intro files
  induction files with
  | nil =>
      intro i man paths
      simp [buildLoop]
  | cons e rest ih =>
      intro i man paths
      obtain ⟨p, st⟩ := e
      rw [buildLoop.eq_def]
      dsimp only
      simp only [neverAbort, Bool.false_eq_true, if_false]
      cases st with
      | readable c =>
          dsimp only
          rw [ih]
          simp [buildEntry]
      | unreadable =>
          dsimp only
          rw [ih]
          simp [buildEntry]

/-- `build_manifest` with no abort: the manifest holds exactly the
readable non-`Sentinel` files with their digests, in enumeration order. -/
theorem build_manifest_no_abort (d : Drive) :
    build_manifest d neverAbort =
      ⟨(d.filter (fun e => !(e.1.startsWith SENTINEL_DIR))).filterMap buildEntry,
       (d.filter (fun e => !(e.1.startsWith SENTINEL_DIR))).filterMap
         (fun e => (buildEntry e).map Prod.fst),
       false⟩ := by
  rw [build_manifest, buildLoop_no_abort]
  simp

/-- On an association list with pairwise-distinct keys, membership
determines `lookup`. -/
theorem lookup_of_mem_nodup :
    ∀ (l : List (String × FileState)) (a : String) (b : FileState),
      (l.map Prod.fst).Nodup → (a, b) ∈ l → List.lookup a l = some b := by
  intro l
  induction l with
  | nil =>
      intro a b _ hmem
      simp at hmem
  | cons hd tl ih =>
      intro a b hnd hmem
      obtain ⟨p, st⟩ := hd
      simp only [List.map_cons, List.nodup_cons] at hnd
      by_cases hpa : a = p
      · subst hpa
        have hb : b = st := by
          rcases List.mem_cons.mp hmem with h | h
          · exact (Prod.mk.injEq _ _ _ _ ▸ h).2.symm ▸ rfl
          · exact absurd (List.mem_map.mpr ⟨(a, b), h, rfl⟩) hnd.1
        subst hb
        simp [List.lookup]
      · have htl : (a, b) ∈ tl := by
          rcases List.mem_cons.mp hmem with h | h
          · exact absurd (congrArg Prod.fst h) hpa
          · exact h
        rw [List.lookup]
        simp only [beq_eq_false_iff_ne.mpr hpa]
        exact ih a b hnd.2 htl

/-- C9: manifest round-trip — verifying the manifest just built from an
unchanged drive (distinct file paths, no abort) yields zero mismatches:
the verification passes, the mismatch list is empty, and every record
matches. -/
theorem c9_manifest_round_trip (d : Drive)
    (hnd : (d.map Prod.fst).Nodup) :
    (verify_manifest d (build_manifest d neverAbort).manifest
        neverAbort).passed = true ∧
    (verify_manifest d (build_manifest d neverAbort).manifest
        neverAbort).mismatches = [] ∧
    (∀ r ∈ (verify_manifest d (build_manifest d neverAbort).manifest
        neverAbort).details, r.matched = true) := by
  have hman : ∀ x ∈ (build_manifest d neverAbort).manifest,
      ∃ c, (x.1, FileState.readable c) ∈ d ∧ x.2 = sha256 c := by
    rw [build_manifest_no_abort]
    intro x hx
    obtain ⟨e, he, hbe⟩ := List.mem_filterMap.mp hx
    obtain ⟨p, st⟩ := e
    cases st with
    | readable c =>
        simp only [buildEntry, Option.some.injEq] at hbe
        exact ⟨c, by
          rw [← hbe]
          exact (List.mem_filter.mp he).1, by rw [← hbe]⟩
    | unreadable => simp [buildEntry] at hbe
  have hmm : ∀ x ∈ (build_manifest d neverAbort).manifest,
      mismatchOf d x.1 x.2 = none := by
    intro x hx
    obtain ⟨c, hmem, hx2⟩ := hman x hx
    rw [mismatchOf, lookup_of_mem_nodup d x.1 (FileState.readable c) hnd hmem]
    simp [hx2]
  have hmms : (verify_manifest d (build_manifest d neverAbort).manifest
      neverAbort).mismatches = [] := by
    rw [verify_manifest, verifyLoop_no_abort]
    simp only [List.nil_append]
    rw [List.filterMap_eq_nil_iff]
    intro e he
    exact hmm e he
  refine ⟨?_, hmms, ?_⟩
  · rw [verify_manifest, verifyLoop_no_abort] at hmms ⊢
    simp only [List.nil_append] at hmms ⊢
    rw [hmms]
    rfl
  · rw [verify_manifest, verifyLoop_no_abort]
    simp only [List.nil_append, List.mem_map]
    rintro r ⟨e, he, rfl⟩
    obtain ⟨c, hmem, hx2⟩ := hman e he
    rw [verifyEntry, lookup_of_mem_nodup d e.1 (FileState.readable c) hnd hmem]
    simp [hx2]

/-- Witness for C9 on `driveC9`. -/
theorem c9_manifest_round_trip_witness :
    (verify_manifest driveC9 (build_manifest driveC9 neverAbort).manifest
        neverAbort).passed = true ∧
    (verify_manifest driveC9 (build_manifest driveC9 neverAbort).manifest
        neverAbort).mismatches = [] ∧
    (∀ r ∈ (verify_manifest driveC9 (build_manifest driveC9 neverAbort).manifest
        neverAbort).details, r.matched = true) :=
  c9_manifest_round_trip driveC9 (by decide)

/-- Timestamp behaviour of the shared free-space phase when the manifest
phase passed: the drive-resident timestamp is written iff the free-space
phase neither aborts nor fails, any written time is at least the sweep's
start time, and the host-side config timestamp is never written. -/
theorem sweepFreeSpacePhase_c1 (w : FullWorld) (parts : List String)
    (md : List ManifestRecord) (phases : List String)
    (savedM : Option (String × List (String × Nat))) :
    ((sweepFreeSpacePhase w parts true md phases savedM).2.driveTimestamp ≠
        none ↔
      ((sweepFreeSpacePhase w parts true md phases savedM).1.aborted = false ∧
       (sweepFreeSpacePhase w parts true md phases savedM).1.manifest_passed =
         true ∧
       (sweepFreeSpacePhase w parts true md phases
           savedM).1.free_space_passed = true)) ∧
    (∀ t, (sweepFreeSpacePhase w parts true md phases
        savedM).2.driveTimestamp = some t → w.startTime ≤ t) ∧
    (sweepFreeSpacePhase w parts true md phases savedM).2.hostTimestamp =
      none := by
  by_cases hab : (free_space_sweep w.fsEnv).1.aborted
  · simp [sweepFreeSpacePhase, hab]
  · have hab' : (free_space_sweep w.fsEnv).1.aborted = false :=
      Bool.not_eq_true _ ▸ hab
    by_cases hp : (free_space_sweep w.fsEnv).1.passed
    · simp only [sweepFreeSpacePhase, hab', Bool.false_eq_true, if_false, hp]
      rw [if_neg (show ¬ (true = false) by decide)]
      refine ⟨?_, ?_, rfl⟩
      · constructor
        · intro _
          exact ⟨rfl, rfl, rfl⟩
        · intro _
          simp
      · intro t ht
        simp only [Option.some.injEq] at ht
        rw [← ht, write_last_sweep_timestamp]
        omega
    · have hp' : (free_space_sweep w.fsEnv).1.passed = false :=
        Bool.not_eq_true _ ▸ hp
      simp [sweepFreeSpacePhase, hab', hp']

/-- The free-space phase passes the phase list and the saved-manifest
effect through unchanged (appending its own phase notification). -/
theorem sweepFreeSpacePhase_static (w : FullWorld) (parts : List String)
    (mp : Bool) (md : List ManifestRecord) (phases : List String)
    (savedM : Option (String × List (String × Nat))) :
    (sweepFreeSpacePhase w parts mp md phases savedM).2.phases =
        phases ++ ["free_space"] ∧
      (sweepFreeSpacePhase w parts mp md phases savedM).2.savedManifest =
        savedM := by
  simp only [sweepFreeSpacePhase]
  split_ifs <;> exact ⟨rfl, rfl⟩

/-- Fields of the free-space phase when the sweep fully succeeds. -/
theorem sweepFreeSpacePhase_success_fields (w : FullWorld)
    (parts : List String) (mp : Bool) (md : List ManifestRecord)
    (phases : List String) (savedM : Option (String × List (String × Nat)))
    (hab : (free_space_sweep w.fsEnv).1.aborted = false)
    (hp : (free_space_sweep w.fsEnv).1.passed = true) :
    (sweepFreeSpacePhase w parts mp md phases savedM).1.passed = true ∧
    (sweepFreeSpacePhase w parts mp md phases savedM).1.aborted = false ∧
    (sweepFreeSpacePhase w parts mp md phases savedM).1.manifest_passed =
      mp ∧
    (sweepFreeSpacePhase w parts mp md phases savedM).1.free_space_passed =
      true ∧
    (sweepFreeSpacePhase w parts mp md phases savedM).2.driveTimestamp =
      some (w.startTime + w.elapsed) ∧
    (sweepFreeSpacePhase w parts mp md phases savedM).2.hostTimestamp =
      none := by
  simp only [sweepFreeSpacePhase, hab, Bool.false_eq_true, if_false, hp]
  rw [if_neg (show ¬ (true = false) by decide)]
  exact ⟨rfl, rfl, rfl, rfl, rfl, rfl⟩

/-- C1 (amended): `full_sweep` writes the drive-resident "last sweep"
timestamp exactly when the run is not aborted and both the manifest and
the free-space phase passed, and any written time is `≥` the moment the
sweep started; the host-resident config timestamp is never written by
`full_sweep` (refuting the claim's "drive-resident and host-resident
timestamps are written"). -/
theorem c1_timestamp_commit_amended (w : FullWorld) :
    ((full_sweep w).2.driveTimestamp ≠ none ↔
      ((full_sweep w).1.aborted = false ∧
       (full_sweep w).1.manifest_passed = true ∧
       (full_sweep w).1.free_space_passed = true)) ∧
    (∀ t, (full_sweep w).2.driveTimestamp = some t → w.startTime ≤ t) ∧
    ((full_sweep w).2.hostTimestamp = none) := by
  simp only [full_sweep]
  cases hl : load_manifest w.hostStore w.driveRoot with
  | none =>
      dsimp only
      by_cases hb : (build_manifest w.drive w.buildAbort).aborted
      · simp [hb]
      · have hb' : (build_manifest w.drive w.buildAbort).aborted = false :=
          Bool.not_eq_true _ ▸ hb
        simp only [hb', Bool.false_eq_true, if_false]
        exact sweepFreeSpacePhase_c1 w _ _ _ _
  | some manifest =>
      dsimp only
      by_cases hva : (verify_manifest w.drive manifest w.verifyAbort).aborted
      · simp [hva]
      · have hva' :
            (verify_manifest w.drive manifest w.verifyAbort).aborted =
              false := Bool.not_eq_true _ ▸ hva
        simp only [hva', Bool.false_eq_true, if_false]
        by_cases hvp : (verify_manifest w.drive manifest w.verifyAbort).passed
        · simp only [hvp]
          rw [if_neg (show ¬ (true = false) by decide)]
          exact sweepFreeSpacePhase_c1 w _ _ _ _
        · have hvp' :
              (verify_manifest w.drive manifest w.verifyAbort).passed =
                false := Bool.not_eq_true _ ▸ hvp
          simp [hvp']

/-- The free-space phase of `worldC1` completes and passes. -/
theorem worldC1_fs_facts :
    (free_space_sweep worldC1.fsEnv).1.aborted = false ∧
      (free_space_sweep worldC1.fsEnv).1.passed = true := by
  have henv : worldC1.fsEnv = envC1fs := rfl
  rw [henv]
  have husable : usableBytes envC1fs = 1024 := by decide
  have hplan : planBatches 1024 MAX_FILE_BYTES = [1024] := by
    rw [planBatches_eq _ _ (by rw [MAX_FILE_BYTES]; norm_num), MAX_FILE_BYTES]
    norm_num
  rw [free_space_sweep_eq envC1fs (by rw [husable]; norm_num) rfl, husable,
    hplan,
    batchLoop_ok_step fsMsgs envC1fs _ _ 1024 [] 0 [] 0 rfl rfl rfl rfl]
  exact ⟨rfl, rfl⟩

/-- `full_sweep` on `worldC1` reaches the shared free-space phase from
the build branch. -/
theorem full_sweep_worldC1_build :
    full_sweep worldC1 =
      sweepFreeSpacePhase worldC1 ["Manifest built (new card)."] true []
        ["build_manifest"] (some (driveKey worldC1.driveRoot, [])) := by
  simp only [full_sweep]
  rw [show load_manifest worldC1.hostStore worldC1.driveRoot = none from rfl]
  dsimp only
  rw [show build_manifest worldC1.drive worldC1.buildAbort =
    (⟨[], [], false⟩ : BuildResult) from rfl]
  simp only [Bool.false_eq_true, if_false]

/-- C1 counterexample: a fully successful `full_sweep` (both phases
passed, not aborted) writes the drive-resident timestamp but does not
write the host-resident config timestamp. -/
theorem c1_timestamp_commit_counterexample :
    (full_sweep worldC1).1.passed = true ∧
    (full_sweep worldC1).1.aborted = false ∧
    (full_sweep worldC1).1.manifest_passed = true ∧
    (full_sweep worldC1).1.free_space_passed = true ∧
    (full_sweep worldC1).2.driveTimestamp = some 12 ∧
    (full_sweep worldC1).2.hostTimestamp = none := by
  have hfs := worldC1_fs_facts
  have h := sweepFreeSpacePhase_success_fields worldC1
    ["Manifest built (new card)."] true [] ["build_manifest"]
    (some (driveKey worldC1.driveRoot, [])) hfs.1 hfs.2
  rw [full_sweep_worldC1_build]
  exact ⟨h.1, h.2.1, h.2.2.1, h.2.2.2.1, h.2.2.2.2.1, h.2.2.2.2.2⟩

/-- Witness for the amended C1: on `worldC1` the written drive-resident
timestamp `12` is at least the start time `5`, and the host-resident
timestamp was not written. -/
theorem c1_timestamp_commit_amended_witness :
    (5 : Nat) ≤ 12 ∧ (full_sweep worldC1).2.hostTimestamp = none := by
  have hfs := worldC1_fs_facts
  have hts : (full_sweep worldC1).2.driveTimestamp = some 12 := by
    rw [full_sweep_worldC1_build]
    exact (sweepFreeSpacePhase_success_fields worldC1
      ["Manifest built (new card)."] true [] ["build_manifest"]
      (some (driveKey worldC1.driveRoot, [])) hfs.1 hfs.2).2.2.2.2.1
  have h := c1_timestamp_commit_amended worldC1
  exact ⟨h.2.1 12 hts, h.2.2⟩

/-- C8: the manifest is persisted host-side under the key `driveKey`
derived from the drive's mount designation; loading a nonexistent or
corrupt (unparseable) stored manifest yields "no manifest"
(`None`) rather than an error, and a `full_sweep` that loads no manifest
runs the build phase — never the verify phase — and (when the build is
not aborted) persists the newly built manifest under that key. -/
theorem c8_manifest_persistence (w : FullWorld) :
    (load_manifest w.hostStore w.driveRoot = none ↔
      w.hostStore (driveKey w.driveRoot) = none ∨
      w.hostStore (driveKey w.driveRoot) = some MFile.corrupt) ∧
    (load_manifest w.hostStore w.driveRoot = none →
      (full_sweep w).2.phases.head? = some "build_manifest" ∧
      "verify_manifest" ∉ (full_sweep w).2.phases ∧
      ((build_manifest w.drive w.buildAbort).aborted = false →
        (full_sweep w).2.savedManifest =
          some (driveKey w.driveRoot,
            (build_manifest w.drive w.buildAbort).manifest))) := by
  constructor
  · rw [load_manifest]
    cases hs : w.hostStore (driveKey w.driveRoot) with
    | none => simp
    | some f =>
        cases f with
        | corrupt => simp
        | valid m => simp
  · intro hl
    simp only [full_sweep, hl]
    by_cases hb : (build_manifest w.drive w.buildAbort).aborted
    · simp only [hb, if_true]
      refine ⟨rfl, by decide, ?_⟩
      intro h
      exact absurd h (by decide)
    · have hb' : (build_manifest w.drive w.buildAbort).aborted = false :=
        Bool.not_eq_true _ ▸ hb
      simp only [hb', Bool.false_eq_true, if_false]
      have hstat := sweepFreeSpacePhase_static w
        ["Manifest built (new card)."] true [] ["build_manifest"]
        (some (driveKey w.driveRoot,
          (build_manifest w.drive w.buildAbort).manifest))
      refine ⟨?_, ?_, fun _ => hstat.2⟩
      · rw [hstat.1]
        rfl
      · rw [hstat.1]
        decide

/-- Witness for C8: with an empty host store the load yields no
manifest, `full_sweep` opens with the build phase, never runs the verify
phase, and persists the new manifest under the derived key. -/
theorem c8_manifest_persistence_witness :
    (full_sweep worldC8).2.phases.head? = some "build_manifest" ∧
    "verify_manifest" ∉ (full_sweep worldC8).2.phases ∧
    (full_sweep worldC8).2.savedManifest =
      some (driveKey worldC8.driveRoot,
        (build_manifest worldC8.drive worldC8.buildAbort).manifest) := by
  have h := (c8_manifest_persistence worldC8).2 rfl
  exact ⟨h.1, h.2.1, h.2.2 rfl⟩

end Sentinel
